import Mathlib

/-!
Verification of the storm-data ETL service core.

This file shallowly embeds the transform engine (`internal/domain/transform.go`),
the geocoding decorator (`internal/domain/geocode.go`), the LRU cache
(`internal/adapter/mapbox/cache.go`), the Kafka serializer
(`internal/adapter/kafka/writer.go`) and the batched pipeline orchestrator
(`internal/pipeline`, batched variant) into Lean, and proves or refutes the
frozen specification claims against that embedding.

Modelling conventions:
- Go `float64` values are modelled as exact rationals (`ℚ`).  IEEE rounding,
  infinities and NaN are outside the model; the domain data is decimal text
  parsed into floats and formatted back, for which the rational semantics
  agrees with the shortest-round-trip float behaviour the spec relies on.
- Go `time.Time` is modelled as a UTC wall-clock instant (`GoTime`); all
  times flowing through the pipeline are UTC instants.
- Go strings are Lean `String`s; character classification (whitespace,
  upper/lower case) is modelled on the Latin-1 range that Go's
  `strings.TrimSpace`/`strings.ToLower` use for the ASCII data this service
  processes.
- `json.Unmarshal` of the upstream payload is modelled by a `Payload` sum:
  the bytes either decode to a `RawCSVRecord` or are malformed.
-/

namespace StormETL

set_option maxRecDepth 1000000

deriving instance DecidableEq for Except

/- Batteries marks the rational-number arithmetic irreducible; concrete
evaluation in witnesses needs it unfolded. -/
attribute [local semireducible] Rat.add Rat.mul Rat.sub Rat.inv

/-! ## Character and string helpers (Go strings / unicode packages) -/

/-- Go `unicode.IsSpace` restricted to Latin-1: `\t \n \v \f \r space NEL NBSP`. -/
def goIsSpace (c : Char) : Bool :=
  c.toNat = 9 || c.toNat = 10 || c.toNat = 11 || c.toNat = 12 || c.toNat = 13 ||
  c.toNat = 32 || c.toNat = 133 || c.toNat = 160

/-- Go `unicode.IsUpper` restricted to ASCII `A`–`Z`. -/
def goIsUpper (c : Char) : Bool := 65 ≤ c.toNat && c.toNat ≤ 90

/-- ASCII digit `0`–`9`. -/
def goIsDigit (c : Char) : Bool := 48 ≤ c.toNat && c.toNat ≤ 57

/-- One of `N`, `S`, `E`, `W` (the compass character class of `locationRe`). -/
def isCompassChar (c : Char) : Bool := c = 'N' || c = 'S' || c = 'E' || c = 'W'

/-- Go `strings.TrimSpace` on a character list. -/
def trimList (l : List Char) : List Char :=
  ((l.dropWhile goIsSpace).reverse.dropWhile goIsSpace).reverse

/-- Go `strings.TrimSpace`. -/
def goTrim (s : String) : String := ⟨trimList s.data⟩

/-- Go `unicode.ToLower` on the ASCII range: `A`–`Z` maps to `a`–`z`. -/
def goToLowerChar (c : Char) : Char :=
  if 65 ≤ c.toNat ∧ c.toNat ≤ 90 then Char.ofNat (c.toNat + 32) else c

/-- Go `strings.ToLower` (ASCII case mapping). -/
def goToLower (s : String) : String := ⟨s.data.map goToLowerChar⟩

/-- Go `strings.TrimPrefix`. -/
def goTrimPrefix (s pre : String) : String :=
  if pre.data.isPrefixOf s.data then ⟨s.data.drop pre.data.length⟩ else s

/-- Go `strings.EqualFold` for the ASCII data in play: case-insensitive equality. -/
def goEqualFoldASCII (a b : String) : Bool :=
  goToLower a == goToLower b

/-! ## Integer and float parsing (Go strconv) -/

/-- Digits of a character list interpreted in base 10, `none` if any character
is not an ASCII digit or the list is empty. -/
def digitsToNat : List Char → Option Nat
  | [] => none
  | l =>
    if l.all goIsDigit then
      some (l.foldl (fun acc c => acc * 10 + (c.toNat - 48)) 0)
    else none

/-- Go `strconv.Atoi`: optional sign, then one or more ASCII digits.
(Overflow is irrelevant at the sizes in play.) -/
def goAtoi (s : String) : Option Int :=
  match s.data with
  | [] => none
  | c :: rest =>
    if c = '+' then (digitsToNat rest).map Int.ofNat
    else if c = '-' then (digitsToNat rest).map (fun n => -(Int.ofNat n))
    else (digitsToNat (c :: rest)).map Int.ofNat

/-- Mantissa scanner for `goParseFloat`: consumes `digits [. digits]`,
returning the integer value of all digits and the number of fraction digits.
Fails when there is no digit at all or a stray second dot appears. -/
def scanMantissa (l : List Char) : Option (Nat × Nat) :=
  let intPart := l.takeWhile goIsDigit
  let rest := l.dropWhile goIsDigit
  match rest with
  | [] =>
    match digitsToNat intPart with
    | some n => some (n, 0)
    | none => none
  | '.' :: frac =>
    if frac.all goIsDigit ∧ (intPart ≠ [] ∨ frac ≠ []) then
      some (intPart.foldl (fun acc c => acc * 10 + (c.toNat - 48)) 0 * 10 ^ frac.length
              + frac.foldl (fun acc c => acc * 10 + (c.toNat - 48)) 0,
            frac.length)
    else none
  | _ => none

/-- Go `strconv.ParseFloat` over the decimal forms the service's data uses:
optional sign, decimal mantissa with optional fraction, optional `e`/`E`
exponent.  Inf/NaN and hexadecimal floats are outside the rational model and
yield `none` (the callers then substitute 0). -/
def goParseFloat (s : String) : Option ℚ :=
  let core : List Char → Option ℚ := fun l =>
    let mantPart := l.takeWhile (fun c => goIsDigit c || c = '.')
    let expPart := l.drop mantPart.length
    match scanMantissa mantPart with
    | none => none
    | some (m, fracDigits) =>
      match expPart with
      | [] => some ((m : ℚ) / 10 ^ fracDigits)
      | e :: rest =>
        if e = 'e' ∨ e = 'E' then
          match goAtoi ⟨rest⟩ with
          | some ex => some ((m : ℚ) / 10 ^ fracDigits * (10 : ℚ) ^ ex)
          | none => none
        else none
  match s.data with
  | '+' :: rest => core rest
  | '-' :: rest => (core rest).map Neg.neg
  | l => core l

/-! ## Decimal formatting (Go fmt "%.4f" and "%g" over the rational model) -/

/-- Left-pad a string with `0` to the given width. -/
def padZero (width : Nat) (s : String) : String :=
  ⟨List.replicate (width - s.data.length) '0' ++ s.data⟩

/-- Go `fmt.Sprintf("%.4f", x)`: sign, integer part, exactly four fraction
digits, rounding to nearest.  (Exact decimal ties cannot arise from binary
floats, so the tie-breaking direction is immaterial; half-up is used.) -/
def fmtFixed4 (q : ℚ) : String :=
  let sign := if q < 0 then "-" else ""
  let n : ℕ := (⌊|q| * 10000 + 1 / 2⌋).toNat
  sign ++ Nat.repr (n / 10000) ++ "." ++ padZero 4 (Nat.repr (n % 10000))

/-- Smallest `e` with `den ∣ 10 ^ e`, i.e. the number of decimal fraction
digits needed to write the rational exactly (`none` when the expansion does
not terminate; unreachable for values parsed from decimal text). -/
def findPow10Exp (den : Nat) : Option Nat :=
  (List.range 701).find? (fun e => den ∣ 10 ^ e)

/-- Strip trailing decimal zeros: `(n, e) ↦ (n', e')` with
`n / 10^e = n' / 10^e'` and (when the budget allows) `10 ∤ n'`. -/
def stripTrailing : Nat → Nat → Nat × Nat
  | n, 0 => (n, 0)
  | n, e + 1 => if n % 10 = 0 then stripTrailing (n / 10) e else (n, e + 1)

/-- Number of decimal digits of `n` (for `n ≥ 1`). -/
def numDigits (n : Nat) : Nat := (Nat.repr n).data.length

/-- Scientific-notation branch of `%g`: shortest digits `d₁.d₂…eₛxx` with a
sign and an at-least-two-digit exponent, as Go prints it. -/
def eNotation (sign : String) (n : Nat) (d : ℤ) : String :=
  let s := ((Nat.repr n).data.reverse.dropWhile (· = '0')).reverse
  let head : List Char := s.take 1
  let tail := s.drop 1
  sign ++ ⟨head⟩ ++ (if tail = [] then "" else "." ++ (⟨tail⟩ : String)) ++
    "e" ++ (if d < 0 then "-" else "+") ++ padZero 2 (Nat.repr d.natAbs)

/-- Fixed-notation branch of `%g`: `n / 10^e` without trailing fraction zeros. -/
def fixedNotation (sign : String) (n : Nat) (e : Nat) : String :=
  if e = 0 then sign ++ Nat.repr n
  else
    let s := (Nat.repr n).data
    if e < s.length then
      sign ++ (⟨s.take (s.length - e)⟩ : String) ++ "." ++ (⟨s.drop (s.length - e)⟩ : String)
    else
      sign ++ "0." ++ (⟨List.replicate (e - s.length) '0'⟩ : String) ++ (⟨s⟩ : String)

/-- A long fixed rendering used only on the (unreachable) non-terminating
branch of `fmtG`, to keep the function total. -/
def fmtFixedLong (q : ℚ) : String :=
  Nat.repr (⌊q⌋).toNat ++ "." ++ padZero 20 (Nat.repr (⌊(q - ⌊q⌋) * 10 ^ 20⌋).toNat)

/-- Go `fmt.Sprintf("%g", x)`: shortest decimal representation, scientific
notation when the decimal exponent is `< -4` or `≥ 21`, fixed otherwise. -/
def fmtG (q : ℚ) : String :=
  if q = 0 then "0"
  else
    let sign := if q < 0 then "-" else ""
    let a := |q|
    match findPow10Exp a.den with
    | none => sign ++ fmtFixedLong a
    | some e0 =>
      let n0 := (a * 10 ^ e0).num.toNat
      let p := stripTrailing n0 e0
      let d : ℤ := (numDigits p.1 : ℤ) - 1 - (p.2 : ℤ)
      if d < -4 ∨ 21 ≤ d then eNotation sign p.1 d
      else fixedNotation sign p.1 p.2

/-! ## Time (Go time.Time as a UTC instant) -/

/-- A Go `time.Time` in UTC: wall-clock components.  The zero value is
`0001-01-01T00:00:00Z`, as in Go. -/
structure GoTime where
  year : Nat
  month : Nat
  day : Nat
  hour : Nat
  minute : Nat
  second : Nat
  nanos : Nat
deriving DecidableEq, Repr

/-- Go's zero time `time.Time{}`. -/
def GoTime.zero : GoTime := ⟨1, 1, 1, 0, 0, 0, 0⟩

/-- Go `t.IsZero()`. -/
def GoTime.isZero (t : GoTime) : Bool := t = GoTime.zero

/-- `time.Date(y, m, d, hour, min, 0, 0, time.UTC)` for in-range components. -/
def GoTime.atHourMin (t : GoTime) (h m : Nat) : GoTime :=
  ⟨t.year, t.month, t.day, h, m, 0, 0⟩

/-- `t.UTC().Truncate(time.Hour)` for a UTC instant: zero the sub-hour part. -/
def GoTime.truncHour (t : GoTime) : GoTime :=
  ⟨t.year, t.month, t.day, t.hour, 0, 0, 0⟩

/-- Go `t.Format(time.RFC3339)` for a UTC instant: `YYYY-MM-DDTHH:MM:SSZ`. -/
def fmtRFC3339 (t : GoTime) : String :=
  padZero 4 (Nat.repr t.year) ++ "-" ++ padZero 2 (Nat.repr t.month) ++ "-" ++
  padZero 2 (Nat.repr t.day) ++ "T" ++ padZero 2 (Nat.repr t.hour) ++ ":" ++
  padZero 2 (Nat.repr t.minute) ++ ":" ++ padZero 2 (Nat.repr t.second) ++ "Z"

/-- JSON encoding of a `time.Time` (RFC 3339 with nanoseconds, trailing zeros
trimmed — `time.Time.MarshalJSON`). -/
def jsonTime (t : GoTime) : String :=
  let base := padZero 4 (Nat.repr t.year) ++ "-" ++ padZero 2 (Nat.repr t.month) ++ "-" ++
    padZero 2 (Nat.repr t.day) ++ "T" ++ padZero 2 (Nat.repr t.hour) ++ ":" ++
    padZero 2 (Nat.repr t.minute) ++ ":" ++ padZero 2 (Nat.repr t.second)
  let frac :=
    if t.nanos = 0 then ""
    else "." ++ ⟨((padZero 9 (Nat.repr t.nanos)).data.reverse.dropWhile (· = '0')).reverse⟩
  base ++ frac ++ "Z"

/-! ## Bytes, UTF-8, SHA-256, hex (crypto/sha256 and encoding/hex) -/

/-- UTF-8 encoding of a single scalar value (Go string bytes). -/
def utf8Bytes (c : Char) : List Nat :=
  let n := c.toNat
  if n < 128 then [n]
  else if n < 2048 then [192 + n / 64, 128 + n % 64]
  else if n < 65536 then [224 + n / 4096, 128 + n / 64 % 64, 128 + n % 64]
  else [240 + n / 262144, 128 + n / 4096 % 64, 128 + n / 64 % 64, 128 + n % 64]

/-- The bytes of a Go string (UTF-8). -/
def strBytes (s : String) : List Nat := s.data.flatMap utf8Bytes

/-- 32-bit truncating addition. -/
def add32 (a b : Nat) : Nat := (a + b) % 4294967296

/-- Right rotation of a 32-bit word. -/
def rotr32 (k x : Nat) : Nat := (x >>> k) ||| ((x <<< (32 - k)) % 4294967296)

/-- SHA-256 round constants (in decimal). -/
def shaK : List Nat := [
  1116352408, 1899447441, 3049323471, 3921009573, 961987163, 1508970993,
  2453635748, 2870763221, 3624381080, 310598401, 607225278, 1426881987,
  1925078388, 2162078206, 2614888103, 3248222580, 3835390401, 4022224774,
  264347078, 604807628, 770255983, 1249150122, 1555081692, 1996064986,
  2554220882, 2821834349, 2952996808, 3210313671, 3336571891, 3584528711,
  113926993, 338241895, 666307205, 773529912, 1294757372, 1396182291,
  1695183700, 1986661051, 2177026350, 2456956037, 2730485921, 2820302411,
  3259730800, 3345764771, 3516065817, 3600352804, 4094571909, 275423344,
  430227734, 506948616, 659060556, 883997877, 958139571, 1322822218,
  1537002063, 1747873779, 1955562222, 2024104815, 2227730452, 2361852424,
  2428436474, 2756734187, 3204031479, 3329325298]

/-- SHA-256 padding: `0x80`, zeros to 56 mod 64, 8-byte big-endian bit length. -/
def shaPad (msg : List Nat) : List Nat :=
  let len := msg.length
  let zeros := (64 + 56 - (len + 1) % 64) % 64
  let bitLen := len * 8
  msg ++ [128] ++ List.replicate zeros 0 ++
    [bitLen / 2 ^ 56 % 256, bitLen / 2 ^ 48 % 256, bitLen / 2 ^ 40 % 256, bitLen / 2 ^ 32 % 256,
     bitLen / 2 ^ 24 % 256, bitLen / 2 ^ 16 % 256, bitLen / 2 ^ 8 % 256, bitLen % 256]

/-- Split into 64-byte blocks (`fuel` bounds the recursion structurally; it
is always called with `fuel = l.length`, which suffices). -/
def chunk64Go : Nat → List Nat → List (List Nat)
  | _, [] => []
  | 0, l => [l]
  | fuel + 1, l => if l.length ≤ 64 then [l] else l.take 64 :: chunk64Go fuel (l.drop 64)

/-- Split into 64-byte blocks. -/
def chunk64 (l : List Nat) : List (List Nat) := chunk64Go l.length l

/-- Big-endian 32-bit words from the first 16 4-byte groups of a block. -/
def blockWords (block : List Nat) : List Nat :=
  (List.range 16).map (fun i =>
    block.getD (4 * i) 0 * 2 ^ 24 + block.getD (4 * i + 1) 0 * 2 ^ 16 +
    block.getD (4 * i + 2) 0 * 2 ^ 8 + block.getD (4 * i + 3) 0)

/-- Message-schedule extension to 64 words. -/
def extendWords (w : List Nat) : List Nat :=
  (List.range 48).foldl
    (fun w i =>
      let j := i + 16
      let wm15 := w.getD (j - 15) 0
      let wm2 := w.getD (j - 2) 0
      let s0 := rotr32 7 wm15 ^^^ rotr32 18 wm15 ^^^ (wm15 >>> 3)
      let s1 := rotr32 17 wm2 ^^^ rotr32 19 wm2 ^^^ (wm2 >>> 10)
      w ++ [add32 (add32 (w.getD (j - 16) 0) s0) (add32 (w.getD (j - 7) 0) s1)])
    w

/-- One SHA-256 compression step over the eight working words. -/
def shaRound (st : List Nat) (ki wi : Nat) : List Nat :=
  let a := st.getD 0 0; let b := st.getD 1 0; let c := st.getD 2 0; let d := st.getD 3 0
  let e := st.getD 4 0; let f := st.getD 5 0; let g := st.getD 6 0; let h := st.getD 7 0
  let s1 := rotr32 6 e ^^^ rotr32 11 e ^^^ rotr32 25 e
  let ch := (e &&& f) ^^^ ((4294967295 - e) &&& g)
  let t1 := add32 (add32 h s1) (add32 (add32 ch ki) wi)
  let s0 := rotr32 2 a ^^^ rotr32 13 a ^^^ rotr32 22 a
  let mj := (a &&& b) ^^^ (a &&& c) ^^^ (b &&& c)
  let t2 := add32 s0 mj
  [add32 t1 t2, a, b, c, add32 d t1, e, f, g]

/-- Process one 64-byte block into the running hash state. -/
def shaBlock (hs : List Nat) (block : List Nat) : List Nat :=
  let w := extendWords (blockWords block)
  let fin := (List.range 64).foldl
    (fun st i => shaRound st (shaK.getD i 0) (w.getD i 0)) hs
  (List.range 8).map (fun i => add32 (hs.getD i 0) (fin.getD i 0))

/-- SHA-256 digest of a byte sequence, as 32 bytes. -/
def sha256 (msg : List Nat) : List Nat :=
  let init : List Nat := [1779033703, 3144134277, 1013904242, 2773480762,
                          1359893119, 2600822924, 528734635, 1541459225]
  let hs := (chunk64 (shaPad msg)).foldl shaBlock init
  hs.flatMap (fun wrd => [wrd / 2 ^ 24 % 256, wrd / 2 ^ 16 % 256, wrd / 2 ^ 8 % 256, wrd % 256])

/-- Lowercase hex character of a nibble. -/
def hexDigit (n : Nat) : Char :=
  if n < 10 then Char.ofNat (48 + n) else Char.ofNat (87 + n)

/-- The two hex characters of one byte. -/
def byteHexChars (b : Nat) : List Char := [hexDigit (b / 16), hexDigit (b % 16)]

/-- Go `hex.EncodeToString` on bytes. -/
def hexEncode (l : List Nat) : String := ⟨l.flatMap byteHexChars⟩

/-! ## Domain model (internal/domain/event.go) -/

/-- The flat CSV-style JSON record produced by the collector. -/
structure RawCSVRecord where
  time : String
  size : String
  fScale : String
  speed : String
  location : String
  county : String
  state : String
  lat : String
  lon : String
  comments : String
  eventType : String
deriving DecidableEq, Repr

/-- The decoded content of a raw message body: `json.Unmarshal` either fails
or produces a record (missing fields default to the empty string, unknown
fields are dropped — both captured by `RawCSVRecord`). -/
inductive Payload where
  | malformed
  | record (rec : RawCSVRecord)
deriving DecidableEq, Repr

/-- An unprocessed message from the source topic.  The `Commit` closure is
modelled by `hasCommit` (whether a commit capability is attached); the
pipeline ledger records its invocations. -/
structure RawEvent where
  key : List Nat
  value : Payload
  topic : String
  partition : Int
  offset : Int
  timestamp : GoTime
  hasCommit : Bool
deriving DecidableEq, Repr

/-- WGS-84 coordinate pair. -/
structure Geo where
  lat : ℚ
  lon : ℚ
deriving DecidableEq, Repr

/-- Raw NWS location string and its parsed components. -/
structure Location where
  raw : String
  name : String
  distance : Option ℚ
  direction : Option String
  state : String
  county : String
deriving DecidableEq, Repr

/-- Magnitude, unit and optional severity label. -/
structure Measurement where
  magnitude : ℚ
  unit : String
  severity : Option String
deriving DecidableEq, Repr

/-- Results of the optional geocoding enrichment step. -/
structure Geocoding where
  formattedAddress : String
  placeName : String
  confidence : ℚ
  source : String
deriving DecidableEq, Repr

/-- The domain-rich storm event after parsing and enrichment. -/
structure StormEvent where
  id : String
  eventType : String
  geo : Geo
  measurement : Measurement
  beginTime : GoTime
  endTime : GoTime
  source : String
  location : Location
  comments : String
  sourceOffice : String
  timeBucket : GoTime
  geocoding : Geocoding
  rawPayload : Payload
  processedAt : GoTime
deriving DecidableEq, Repr

/-- The zero `Geocoding` block. -/
def Geocoding.zero : Geocoding := ⟨"", "", 0, ""⟩

/-- The serialized form destined for the sink topic. -/
structure OutputEvent where
  key : List Nat
  value : List Nat
  headers : List (String × String)
deriving DecidableEq, Repr

/-- A geocoding provider result (`domain.GeocodingResult`). -/
structure GeocodingResult where
  lat : ℚ
  lon : ℚ
  formattedAddress : String
  placeName : String
  confidence : ℚ
deriving DecidableEq, Repr

/-! ## Transform engine (internal/domain/transform.go) -/

/-- `parseFloatOrZero`: parse a string as a float, 0 on failure. -/
def parseFloatOrZero (s : String) : ℚ :=
  let t := goTrim s
  if t = "" then 0
  else
    match goParseFloat t with
    | some v => v
    | none => 0

/-- The `switch eventType` of `parseMagnitudeField`: which magnitude column
applies (`none` for unknown event types). -/
def selectMagnitudeRaw (eventType size fScale speed : String) : Option String :=
  if eventType = "hail" then some size
  else if eventType = "tornado" then some fScale
  else if eventType = "wind" then some speed
  else none

/-- `parseMagnitudeField`: select and parse the type-specific magnitude
column; 0 for empty, `UNK`, unknown event types and unparsable values; a
leading `EF` and then a leading `F` are stripped. -/
def parseMagnitudeField (eventType size fScale speed : String) : ℚ :=
  match selectMagnitudeRaw eventType size fScale speed with
  | none => 0
  | some raw =>
    let raw := goTrim raw
    if raw = "" ∨ goEqualFoldASCII raw "UNK" then 0
    else
      let raw := goTrimPrefix (goTrimPrefix raw "EF") "F"
      match goParseFloat raw with
      | some v => v
      | none => 0

/-- `parseHHMM`: combine a base date with an `HHMM` string; the base date is
returned unchanged when the string cannot be interpreted. -/
def parseHHMM (baseDate : GoTime) (hhmm : String) : GoTime :=
  let t := goTrim hhmm
  if t.data.length < 3 then baseDate
  else
    let s := if t.data.length = 3 then '0' :: t.data else t.data
    match goAtoi ⟨s.take 2⟩, goAtoi ⟨s.drop 2⟩ with
    | some hour, some mins =>
      if hour < 0 ∨ 23 < hour ∨ mins < 0 ∨ 59 < mins then baseDate
      else baseDate.atHourMin hour.toNat mins.toNat
    | _, _ => baseDate

/-- `generateID`: deterministic fingerprint
`sha256("<type>|<state>|<lat %.4f>|<lon %.4f>|<time>|<magnitude %g>")`,
first 8 bytes hex-encoded, prefixed with `<type>-` when the type is
non-empty. -/
def generateID (eventType state : String) (lat lon : ℚ) (timeStr : String) (magnitude : ℚ) : String :=
  let input := eventType ++ "|" ++ state ++ "|" ++ fmtFixed4 lat ++ "|" ++ fmtFixed4 lon ++
    "|" ++ timeStr ++ "|" ++ fmtG magnitude
  let short := hexEncode ((sha256 (strBytes input)).take 8)
  if eventType = "" then short else eventType ++ "-" ++ short

/-- `ParseRawEvent`: decode the payload and build the parsed `StormEvent`.
All enrichment-only fields stay at their Go zero values. -/
def ParseRawEvent (raw : RawEvent) : Except String StormEvent :=
  match raw.value with
  | .malformed => .error "parse raw event"
  | .record rec =>
    let lat := parseFloatOrZero rec.lat
    let lon := parseFloatOrZero rec.lon
    let magnitude := parseMagnitudeField rec.eventType rec.size rec.fScale rec.speed
    let eventTime := parseHHMM raw.timestamp rec.time
    .ok
      { id := generateID rec.eventType rec.state lat lon rec.time magnitude
        eventType := rec.eventType
        geo := ⟨lat, lon⟩
        measurement := ⟨magnitude, "", none⟩
        beginTime := eventTime
        endTime := eventTime
        source := ""
        location := ⟨rec.location, "", none, none, rec.state, rec.county⟩
        comments := rec.comments
        sourceOffice := ""
        timeBucket := GoTime.zero
        geocoding := Geocoding.zero
        rawPayload := raw.value
        processedAt := GoTime.zero }

/-- `normalizeEventType`: exact-match validation against the three canonical
event types; anything else becomes the empty string. -/
def normalizeEventType (value : String) : String :=
  if value = "hail" ∨ value = "wind" ∨ value = "tornado" then value else ""

/-- `normalizeUnit`: lowercase-trim a present unit, else infer the default
unit from the event type. -/
def normalizeUnit (eventType unit : String) : String :=
  let unit := goToLower (goTrim unit)
  if unit ≠ "" then unit
  else if eventType = "hail" then "in"
  else if eventType = "wind" then "mph"
  else if eventType = "tornado" then "f_scale"
  else ""

/-- `normalizeMagnitude`: hail magnitudes `≥ 10` with unit `in` are legacy
hundredths-of-inch encodings and are divided by 100; zero passes through. -/
def normalizeMagnitude (eventType : String) (magnitude : ℚ) (unit : String) : ℚ :=
  if magnitude = 0 then magnitude
  else if eventType = "hail" ∧ unit = "in" ∧ 10 ≤ magnitude then magnitude / 100
  else magnitude

/-- `deriveSeverity`: threshold classification per event type; `none` when
the magnitude is zero or the event type is not recognized. -/
def deriveSeverity (eventType : String) (magnitude : ℚ) : Option String :=
  if magnitude = 0 then none
  else if eventType = "hail" then
    some (if magnitude < 3 / 4 then "minor"
      else if magnitude < 3 / 2 then "moderate"
      else if magnitude < 5 / 2 then "severe"
      else "extreme")
  else if eventType = "wind" then
    some (if magnitude < 50 then "minor"
      else if magnitude < 74 then "moderate"
      else if magnitude < 96 then "severe"
      else "extreme")
  else if eventType = "tornado" then
    some (if magnitude ≤ 1 then "minor"
      else if magnitude = 2 then "moderate"
      else if magnitude ≤ 4 then "severe"
      else "extreme")
  else none

/-- `extractSourceOffice`: the 3–5 uppercase-letter code of a trailing
`(XXX)` group in the trimmed comments (regex `\(([A-Z]{3,5})\)\s*$`). -/
def extractSourceOffice (comments : String) : String :=
  let t := goTrim comments
  if t = "" then ""
  else
    match t.data.reverse with
    | ')' :: rest =>
      let code := rest.takeWhile goIsUpper
      if 3 ≤ code.length ∧ code.length ≤ 5 ∧ (rest.drop code.length).head? = some '(' then
        ⟨code.reverse⟩
      else ""
    | _ => ""

/-- The RE2 `\s` character class (`[\t\n\f\r ]`), used by `locationRe`. -/
def regexSpace (c : Char) : Bool :=
  c.toNat = 9 || c.toNat = 10 || c.toNat = 12 || c.toNat = 13 || c.toNat = 32

/-- Match of `locationRe` = `^(\d+(?:\.\d+)?)\s+([NSEW]{1,3})\s+(.+)$`
against a character list, returning the three capture groups. -/
def locationMatch (l : List Char) : Option (List Char × List Char × List Char) :=
  let intDigits := l.takeWhile goIsDigit
  if intDigits = [] then none
  else
    let after1 := l.drop intDigits.length
    let distAndRest : List Char × List Char :=
      match after1 with
      | '.' :: r =>
        let frac := r.takeWhile goIsDigit
        if frac = [] then (intDigits, after1)
        else (intDigits ++ '.' :: frac, r.drop frac.length)
      | _ => (intDigits, after1)
    let afterDist := distAndRest.2
    let sp1 := afterDist.takeWhile regexSpace
    if sp1 = [] then none
    else
      let afterSp1 := afterDist.drop sp1.length
      let dir := afterSp1.takeWhile isCompassChar
      if dir = [] ∨ 3 < dir.length then none
      else
        let afterDir := afterSp1.drop dir.length
        let sp2 := afterDir.takeWhile regexSpace
        if sp2 = [] then none
        else
          let rest := afterDir.drop sp2.length
          if rest = [] ∨ rest.contains '\n' then none
          else some (distAndRest.1, dir, rest)

/-- `parseLocation`: split an NWS relative-location string into
`(name, distance, direction)`; the trimmed raw string becomes the name with
absent distance/direction when the pattern does not match. -/
def parseLocation (location : String) : String × Option ℚ × Option String :=
  let t := goTrim location
  if t = "" then ("", none, none)
  else
    match locationMatch t.data with
    | none => (t, none, none)
    | some (distChars, dirChars, restChars) =>
      match goParseFloat ⟨distChars⟩ with
      | none => (t, none, none)
      | some distance => (goTrim ⟨restChars⟩, some distance, some ⟨dirChars⟩)

/-- `deriveTimeBucket`: truncate to the hour in UTC; zero stays zero. -/
def deriveTimeBucket (t : GoTime) : GoTime :=
  if t.isZero then GoTime.zero else t.truncHour

/-- `EnrichStormEvent`: normalize, classify and enrich a parsed event.  The
package-level clock is passed explicitly as `now`. -/
def EnrichStormEvent (now : GoTime) (event : StormEvent) : StormEvent :=
  let et := normalizeEventType event.eventType
  let unit := normalizeUnit et event.measurement.unit
  let mag := normalizeMagnitude et event.measurement.magnitude unit
  let loc := parseLocation event.location.raw
  { event with
    eventType := et
    measurement := ⟨mag, unit, deriveSeverity et mag⟩
    sourceOffice := extractSourceOffice event.comments
    location := { event.location with name := loc.1, distance := loc.2.1, direction := loc.2.2 }
    timeBucket := deriveTimeBucket event.beginTime
    processedAt := now }

/-! ## Geocoding decorator (internal/domain/geocode.go)

The source file's flat `FormattedAddress`/`PlaceName`/`GeoConfidence`/
`GeoSource` event fields are the `geocoding` block of the wire model. -/

/-- The `Geocoder` port: forward and reverse lookups, each fallible. -/
structure Geocoder where
  forwardGeocode : String → String → Except Unit GeocodingResult
  reverseGeocode : ℚ → ℚ → Except Unit GeocodingResult

/-- `EnrichWithGeocoding`: reverse-geocode when either coordinate is non-zero,
forward-geocode when coordinates are absent but a location name and state are
present; degrade gracefully on provider errors; no-op without a geocoder. -/
def EnrichWithGeocoding (geocoder : Option Geocoder) (event : StormEvent) : StormEvent :=
  match geocoder with
  | none => event
  | some geocoder =>
    let hasCoords := event.geo.lat ≠ 0 ∨ event.geo.lon ≠ 0
    let hasName := event.location.name ≠ "" ∧ event.location.state ≠ ""
    if ¬hasCoords ∧ hasName then
      match geocoder.forwardGeocode event.location.name event.location.state with
      | .error _ => { event with geocoding := { event.geocoding with source := "failed" } }
      | .ok result =>
        if result.lat ≠ 0 ∨ result.lon ≠ 0 then
          { event with
            geo := ⟨result.lat, result.lon⟩
            geocoding := ⟨result.formattedAddress, result.placeName, result.confidence, "forward"⟩ }
        else { event with geocoding := { event.geocoding with source := "original" } }
    else if hasCoords then
      match geocoder.reverseGeocode event.geo.lat event.geo.lon with
      | .error _ => { event with geocoding := { event.geocoding with source := "failed" } }
      | .ok result =>
        if result.formattedAddress ≠ "" then
          { event with
            geocoding := ⟨result.formattedAddress, result.placeName, result.confidence, "reverse"⟩ }
        else { event with geocoding := { event.geocoding with source := "original" } }
    else
      { event with geocoding := { event.geocoding with source := "original" } }

/-! ## LRU cache (internal/adapter/mapbox/cache.go)

The map plus doubly-linked list is modelled as an association list ordered
most-recently-used first; `head` is the front, `tail` the last element. -/

/-- Cache contents, most-recently-used first. -/
abbrev LRUCache := List (String × GeocodingResult)

/-- `lruCache.get`: look a key up and promote it to most-recently-used. -/
def lruGet (c : LRUCache) (k : String) : Option GeocodingResult × LRUCache :=
  match c.find? (fun e => e.1 = k) with
  | none => (none, c)
  | some e => (some e.2, e :: c.eraseP (fun e => e.1 = k))

/-- `lruCache.put`: update-and-promote an existing key, else insert at the
front and evict the tail when the capacity is exceeded. -/
def lruPut (maxEntries : Nat) (c : LRUCache) (k : String) (v : GeocodingResult) : LRUCache :=
  match c.find? (fun e => e.1 = k) with
  | some _ => (k, v) :: c.eraseP (fun e => e.1 = k)
  | none =>
    let newCache : LRUCache := (k, v) :: c
    if maxEntries < newCache.length then newCache.dropLast else newCache

/-- One cache operation. -/
inductive CacheOp where
  | put (k : String) (v : GeocodingResult)
  | get (k : String)

/-- Apply one operation to the cache. -/
def applyCacheOp (maxEntries : Nat) (c : LRUCache) : CacheOp → LRUCache
  | .put k v => lruPut maxEntries c k v
  | .get k => (lruGet c k).2

/-- Run a sequence of operations. -/
def runCacheOps (maxEntries : Nat) (c : LRUCache) (ops : List CacheOp) : LRUCache :=
  ops.foldl (applyCacheOp maxEntries) c

/-! ## Batched pipeline orchestrator (internal/pipeline/pipeline.go, batched) -/

/-- Ledger of the orchestrator's observable effects: the two counters the
claim mentions and the sequence of `commitOffset` invocations. -/
structure EtlLedger where
  transformErrors : Nat
  produced : Nat
  commits : List RawEvent
deriving DecidableEq, Repr

/-- `Pipeline.commitOffset`: invoke the message's commit capability when one
is attached (commit failures are logged, not tracked here). -/
def commitOffset (st : EtlLedger) (raw : RawEvent) : EtlLedger :=
  if raw.hasCommit then { st with commits := st.commits ++ [raw] } else st

/-- The transform loop of `transformAndLoad`: count-and-commit failures
immediately, accumulate successes and their source messages in order. -/
def transformPhase (transform : RawEvent → Except Unit α) :
    List RawEvent → EtlLedger → EtlLedger × List α × List RawEvent
  | [], st => (st, [], [])
  | raw :: rest, st =>
    match transform raw with
    | .error _ =>
      transformPhase transform rest
        (commitOffset { st with transformErrors := st.transformErrors + 1 } raw)
    | .ok out =>
      let r := transformPhase transform rest st
      (r.1, out :: r.2.1, raw :: r.2.2)

/-- `Pipeline.transformAndLoad` for one batch: transform every message, and
when the output batch is non-empty invoke the loader; on load success bump
the produced counter and commit every successful source message.  `loadOk`
models whether `LoadBatch` returns without error; the second component is the
batch handed to `LoadBatch` (`none` when the loader is not invoked); the last
component is the returned count of loaded messages. -/
def transformAndLoad (transform : RawEvent → Except Unit α) (loadOk : Bool)
    (rawBatch : List RawEvent) (st₀ : EtlLedger) :
    EtlLedger × Option (List α) × Nat :=
  let r := transformPhase transform rawBatch st₀
  let st := r.1
  let outBatch := r.2.1
  let successfulRaws := r.2.2
  if outBatch.isEmpty then (st, none, 0)
  else if ¬loadOk then (st, some outBatch, 0)
  else
    let st := { st with produced := st.produced + outBatch.length }
    let st := successfulRaws.foldl commitOffset st
    (st, some outBatch, outBatch.length)

/-! ## Serialization (internal/adapter/kafka/writer.go + encoding/json) -/

/-- Go JSON string escaping of one character (`encoding/json` with the
default HTML escaping). -/
def jsonEscapeChar (c : Char) : List Char :=
  if c = '"' then ['\\', '"']
  else if c = '\\' then ['\\', '\\']
  else if c = '\n' then ['\\', 'n']
  else if c = '\r' then ['\\', 'r']
  else if c = '\t' then ['\\', 't']
  else if c.toNat < 32 then
    ['\\', 'u', '0', '0', hexDigit (c.toNat / 16), hexDigit (c.toNat % 16)]
  else if c = '<' then ['\\', 'u', '0', '0', '3', 'c']
  else if c = '>' then ['\\', 'u', '0', '0', '3', 'e']
  else if c = '&' then ['\\', 'u', '0', '0', '2', '6']
  else if c.toNat = 8232 then ['\\', 'u', '2', '0', '2', '8']
  else if c.toNat = 8233 then ['\\', 'u', '2', '0', '2', '9']
  else [c]

/-- A JSON string literal. -/
def jsonStr (s : String) : String :=
  "\"" ++ (⟨s.data.flatMap jsonEscapeChar⟩ : String) ++ "\""

/-- Go JSON float encoding: like `%g` but scientific notation only outside
`[1e-6, 1e21)`. -/
def jsonNumber (q : ℚ) : String :=
  if q = 0 then "0"
  else
    let sign := if q < 0 then "-" else ""
    let a := |q|
    match findPow10Exp a.den with
    | none => sign ++ fmtFixedLong a
    | some e0 =>
      let n0 := (a * 10 ^ e0).num.toNat
      let p := stripTrailing n0 e0
      let d : ℤ := (numDigits p.1 : ℤ) - 1 - (p.2 : ℤ)
      if d < -6 ∨ 21 ≤ d then eNotation sign p.1 d
      else fixedNotation sign p.1 p.2

/-- Join the present `"key":value` pieces of a JSON object. -/
def jsonObj (fields : List (Option (String × String))) : String :=
  "\x7b" ++ String.intercalate ","
    ((fields.filterMap id).map (fun f => jsonStr f.1 ++ ":" ++ f.2)) ++ "\x7d"

/-- JSON form of the `Geo` block (`lat`/`lon` carry `omitempty`). -/
def marshalGeo (g : Geo) : String :=
  jsonObj [
    if g.lat = 0 then none else some ("lat", jsonNumber g.lat),
    if g.lon = 0 then none else some ("lon", jsonNumber g.lon)]

/-- JSON form of the `Measurement` block (`severity` is omitted when nil). -/
def marshalMeasurement (m : Measurement) : String :=
  jsonObj [
    some ("magnitude", jsonNumber m.magnitude),
    some ("unit", jsonStr m.unit),
    m.severity.map (fun s => ("severity", jsonStr s))]

/-- JSON form of the `Location` block (strings and pointers carry
`omitempty`). -/
def marshalLocation (l : Location) : String :=
  jsonObj [
    if l.raw = "" then none else some ("raw", jsonStr l.raw),
    if l.name = "" then none else some ("name", jsonStr l.name),
    l.distance.map (fun d => ("distance", jsonNumber d)),
    l.direction.map (fun d => ("direction", jsonStr d)),
    if l.state = "" then none else some ("state", jsonStr l.state),
    if l.county = "" then none else some ("county", jsonStr l.county)]

/-- JSON form of the `Geocoding` block. -/
def marshalGeocoding (g : Geocoding) : String :=
  jsonObj [
    if g.formattedAddress = "" then none else some ("formatted_address", jsonStr g.formattedAddress),
    if g.placeName = "" then none else some ("place_name", jsonStr g.placeName),
    if g.confidence = 0 then none else some ("confidence", jsonNumber g.confidence),
    if g.source = "" then none else some ("source", jsonStr g.source)]

/-- `json.Marshal` of a `StormEvent` per the struct tags: `RawPayload` is
tagged `json:"-"` and never serialized; struct-typed fields are emitted even
under `omitempty` (Go never treats structs as empty). -/
def marshalStormEvent (e : StormEvent) : String :=
  jsonObj [
    some ("id", jsonStr e.id),
    some ("event_type", jsonStr e.eventType),
    some ("geo", marshalGeo e.geo),
    some ("measurement", marshalMeasurement e.measurement),
    some ("begin_time", jsonStr (jsonTime e.beginTime)),
    some ("end_time", jsonStr (jsonTime e.endTime)),
    some ("source", jsonStr e.source),
    some ("location", marshalLocation e.location),
    (if e.comments = "" then none else some ("comments", jsonStr e.comments)),
    (if e.sourceOffice = "" then none else some ("source_office", jsonStr e.sourceOffice)),
    some ("time_bucket", jsonStr (jsonTime e.timeBucket)),
    some ("geocoding", marshalGeocoding e.geocoding),
    some ("processed_at", jsonStr (jsonTime e.processedAt))]

/-- `serializeToMessage`: key = bytes of the id, value = the JSON
serialization, headers `event_type` and `processed_at` (RFC 3339). -/
def serializeToMessage (event : StormEvent) : OutputEvent :=
  { key := strBytes event.id
    value := strBytes (marshalStormEvent event)
    headers := [("event_type", event.eventType), ("processed_at", fmtRFC3339 event.processedAt)] }

/-! ## Fixtures and spec-side definitions -/

/-- Take the leading `n` characters of a string. -/
def strTake (s : String) (n : Nat) : String := ⟨s.data.take n⟩

/-- The event id as the spec words it: the leading 16 hexadecimal characters
of SHA-256 over `event_type|state|lat(4dp)|lon(4dp)|time|magnitude(%g)`,
prefixed with the event type and a dash exactly when the type is non-empty. -/
def specFingerprint (eventType state : String) (lat lon : ℚ) (timeStr : String)
    (magnitude : ℚ) : String :=
  let digest := hexEncode (sha256 (strBytes (eventType ++ "|" ++ state ++ "|" ++
    fmtFixed4 lat ++ "|" ++ fmtFixed4 lon ++ "|" ++ timeStr ++ "|" ++ fmtG magnitude)))
  (if eventType = "" then "" else eventType ++ "-") ++ strTake digest 16

/-- The raw hail record of spec scenario S1. -/
def w2rec : RawCSVRecord :=
  ⟨"1510", "125", "", "", "8 ESE Chappel", "San Saba", "TX", "31.02", "-98.44",
   "1.25 inch hail reported. (SJT)", "hail"⟩

/-- A raw message carrying `w2rec` with ingest date 2024-04-26. -/
def w2raw : RawEvent :=
  ⟨[], .record w2rec, "raw-weather-reports", 0, 42, ⟨2024, 4, 26, 0, 0, 0, 0⟩, true⟩

/-- The parse result of `w2raw`. -/
def w2ev : StormEvent :=
  { id := "hail-5d91dda0f56ba124"
    eventType := "hail"
    geo := ⟨1551 / 50, -2461 / 25⟩
    measurement := ⟨125, "", none⟩
    beginTime := ⟨2024, 4, 26, 15, 10, 0, 0⟩
    endTime := ⟨2024, 4, 26, 15, 10, 0, 0⟩
    source := ""
    location := ⟨"8 ESE Chappel", "", none, none, "TX", "San Saba"⟩
    comments := "1.25 inch hail reported. (SJT)"
    sourceOffice := ""
    timeBucket := GoTime.zero
    geocoding := Geocoding.zero
    rawPayload := .record w2rec
    processedAt := GoTime.zero }

/-- A bare hail event used by several witnesses. -/
def hailEvent (mag : ℚ) (unit : String) : StormEvent :=
  { id := "evt-1"
    eventType := "hail"
    geo := ⟨0, 0⟩
    measurement := ⟨mag, unit, none⟩
    beginTime := GoTime.zero
    endTime := GoTime.zero
    source := ""
    location := ⟨"", "", none, none, "", ""⟩
    comments := ""
    sourceOffice := ""
    timeBucket := GoTime.zero
    geocoding := Geocoding.zero
    rawPayload := .malformed
    processedAt := GoTime.zero }

/-- An event with coordinates, for the C7 witness. -/
def w7event : StormEvent :=
  { hailEvent 0 "" with geo := ⟨1513 / 50, -4887 / 50⟩ }

/-- A geocoder whose reverse lookup always errors. -/
def w7geocoder : Geocoder :=
  ⟨fun _ _ => Except.ok ⟨0, 0, "", "", 0⟩, fun _ _ => Except.error ()⟩

/-- The outcome of the code's HHMM reading: trim, pad a three-character
string, `Atoi` the two parts, range-check.  `parseHHMM` uses the base date's
components on success and returns the base date unchanged on failure. -/
def codeHHMM (s : String) : Option (Nat × Nat) :=
  let t := goTrim s
  if t.data.length < 3 then none
  else
    let l := if t.data.length = 3 then '0' :: t.data else t.data
    match goAtoi ⟨l.take 2⟩, goAtoi ⟨l.drop 2⟩ with
    | some hour, some mins =>
      if hour < 0 ∨ 23 < hour ∨ mins < 0 ∨ 59 < mins then none
      else some (hour.toNat, mins.toNat)
    | _, _ => none

/-- The claim's well-formed HHMM class: exactly three or four ASCII digits
with hour 0–23 and minute 0–59 (a three-digit value has a one-digit hour). -/
def claimHHMM (s : String) : Option (Nat × Nat) :=
  match s.data with
  | [a, b, c] =>
    if goIsDigit a ∧ goIsDigit b ∧ goIsDigit c then
      let hh := a.toNat - 48
      let mm := (b.toNat - 48) * 10 + (c.toNat - 48)
      if hh ≤ 23 ∧ mm ≤ 59 then some (hh, mm) else none
    else none
  | [a, b, c, d] =>
    if goIsDigit a ∧ goIsDigit b ∧ goIsDigit c ∧ goIsDigit d then
      let hh := (a.toNat - 48) * 10 + (b.toNat - 48)
      let mm := (c.toNat - 48) * 10 + (d.toNat - 48)
      if hh ≤ 23 ∧ mm ≤ 59 then some (hh, mm) else none
    else none
  | _ => none

/-- The wind record of the C8 counterexample: `Speed` is `"-5"`. -/
def w8rec : RawCSVRecord :=
  ⟨"1200", "", "", "-5", "", "", "OK", "", "", "", "wind"⟩

/-- A raw message carrying `w8rec`. -/
def w8raw : RawEvent :=
  ⟨[], .record w8rec, "raw-weather-reports", 0, 7, ⟨2024, 4, 26, 0, 0, 0, 0⟩, true⟩

/-- Whether a transform result is a success. -/
def exceptOk : Except Unit α → Bool
  | .ok _ => true
  | .error _ => false

/-- A poison-pill message for the C1 witness. -/
def w1poison : RawEvent :=
  ⟨[], .malformed, "raw-weather-reports", 0, 1, GoTime.zero, true⟩

/-- A well-formed message for the C1 witness. -/
def w1good : RawEvent :=
  ⟨[], .record ⟨"", "", "", "", "", "", "", "", "", "", "wind"⟩,
   "raw-weather-reports", 0, 2, GoTime.zero, true⟩

/-- A transformer for the C1 witness: fails on malformed payloads. -/
def w1transform : RawEvent → Except Unit String := fun m =>
  match m.value with
  | .malformed => Except.error ()
  | .record rec => Except.ok rec.eventType

/-! ## Helper lemmas -/

/-- Each byte renders as exactly two hex characters, so hex-encoding the
first `n` bytes is taking the first `2n` characters of the full encoding. -/
theorem flatMap_byteHexChars_take (l : List Nat) (n : Nat) :
    (l.take n).flatMap byteHexChars = (l.flatMap byteHexChars).take (2 * n) := by
  induction l generalizing n with
  | nil => simp
  | cons b t ih =>
    cases n with
    | zero => simp
    | succ m =>
      simp only [List.take_succ_cons, List.flatMap_cons, byteHexChars,
        List.cons_append, List.nil_append]
      rw [Nat.mul_succ, show 2 * m + 2 = 2 * m + 1 + 1 from rfl, List.take_succ_cons,
        List.take_succ_cons, ih]

/-- Hex of the first 8 bytes = the leading 16 characters of the full hex. -/
theorem hexEncode_take_eight (l : List Nat) :
    hexEncode (l.take 8) = ⟨(hexEncode l).data.take 16⟩ := by
  simp [hexEncode, flatMap_byteHexChars_take]

/-! ## C2: deterministic event id -/

/-- The code's `generateID` (hex of the first 8 digest bytes) computes the
spec's fingerprint (leading 16 hex characters of the digest). -/
theorem generateID_eq_specFingerprint (eventType state : String) (lat lon : ℚ)
    (timeStr : String) (magnitude : ℚ) :
    generateID eventType state lat lon timeStr magnitude =
      specFingerprint eventType state lat lon timeStr magnitude := by
  dsimp only [generateID, specFingerprint, strTake]
  rw [hexEncode_take_eight]
  split <;> simp

/-- C2: for every parsed RawMessage the event id equals the leading 16 hex
characters of SHA-256 over `event_type|state|lat(4dp)|lon(4dp)|time|mag(%g)`
computed from the record's fields, with the `<event_type>-` prefix exactly
when the event type is non-empty; and parsing any message with the same
payload again yields the same id. -/
theorem C2_deterministic_id (raw : RawEvent) (rec : RawCSVRecord) (ev : StormEvent)
    (hval : raw.value = Payload.record rec) (hok : ParseRawEvent raw = Except.ok ev) :
    ev.id = specFingerprint rec.eventType rec.state
      (parseFloatOrZero rec.lat) (parseFloatOrZero rec.lon) rec.time
      (parseMagnitudeField rec.eventType rec.size rec.fScale rec.speed) ∧
    (∀ raw' ev', raw'.value = raw.value → ParseRawEvent raw' = Except.ok ev' →
      ev'.id = ev.id) := by
  have hid : ev.id = generateID rec.eventType rec.state
      (parseFloatOrZero rec.lat) (parseFloatOrZero rec.lon) rec.time
      (parseMagnitudeField rec.eventType rec.size rec.fScale rec.speed) := by
    rw [ParseRawEvent, hval] at hok
    cases hok
    rfl
  refine ⟨hid.trans (generateID_eq_specFingerprint ..), ?_⟩
  intro raw' ev' hval' hok'
  rw [ParseRawEvent, hval' , hval] at hok'
  cases hok'
  rw [hid]

/-- Witness for C2 at the S1 fixture. -/
theorem C2_witness :
    w2ev.id = specFingerprint "hail" "TX" (parseFloatOrZero "31.02")
      (parseFloatOrZero "-98.44") "1510" (parseMagnitudeField "hail" "125" "" "") :=
  (C2_deterministic_id w2raw w2rec w2ev rfl (by decide)).1

/-! ## C10: enrichment frame conditions -/

/-- C10: enrichment touches only event_type, measurement, source_office,
location name/distance/direction, time_bucket and processed_at; the id, the
coordinates, the times, the comments, the copied location fields, the source,
the geocoding block and the retained raw payload are unchanged.  In
particular the id computed at parse time is never recomputed. -/
theorem C10_enrich_frame (e : StormEvent) (now : GoTime) :
    (EnrichStormEvent now e).id = e.id ∧
    (EnrichStormEvent now e).geo.lat = e.geo.lat ∧
    (EnrichStormEvent now e).geo.lon = e.geo.lon ∧
    (EnrichStormEvent now e).beginTime = e.beginTime ∧
    (EnrichStormEvent now e).endTime = e.endTime ∧
    (EnrichStormEvent now e).comments = e.comments ∧
    (EnrichStormEvent now e).location.raw = e.location.raw ∧
    (EnrichStormEvent now e).location.state = e.location.state ∧
    (EnrichStormEvent now e).location.county = e.location.county ∧
    (EnrichStormEvent now e).source = e.source ∧
    (EnrichStormEvent now e).geocoding = e.geocoding ∧
    (EnrichStormEvent now e).rawPayload = e.rawPayload :=
  ⟨rfl, rfl, rfl, rfl, rfl, rfl, rfl, rfl, rfl, rfl, rfl, rfl⟩

/-! ## C9: serialization to the output message -/

/-- C9: the wire message has key = the UTF-8 bytes of the id, value = the
JSON serialization of the event — which never depends on the retained raw
payload — and exactly the headers `event_type` (the canonical type) and
`processed_at` (RFC 3339 UTC). -/
theorem C9_serialize_message (e : StormEvent) :
    (serializeToMessage e).key = strBytes e.id ∧
    (serializeToMessage e).value = strBytes (marshalStormEvent e) ∧
    (∀ p : Payload, marshalStormEvent { e with rawPayload := p } = marshalStormEvent e) ∧
    (serializeToMessage e).headers =
      [("event_type", e.eventType), ("processed_at", fmtRFC3339 e.processedAt)] :=
  ⟨rfl, rfl, fun _ => rfl, rfl⟩

/-! ## C5: severity classification -/

/-- C5: after enrichment, severity is absent exactly when the magnitude is 0
or the canonical event type is not hail/wind/tornado; when present it is one
of the four labels, assigned by the spec's threshold tables applied to the
enriched type and magnitude. -/
theorem C5_severity (e : StormEvent) (now : GoTime) :
    ((EnrichStormEvent now e).measurement.severity = none ↔
      ((EnrichStormEvent now e).measurement.magnitude = 0 ∨
        (EnrichStormEvent now e).eventType ∉ (["hail", "wind", "tornado"] : List String))) ∧
    (∀ s, (EnrichStormEvent now e).measurement.severity = some s →
      s ∈ (["minor", "moderate", "severe", "extreme"] : List String)) ∧
    ((EnrichStormEvent now e).eventType = "hail" →
      (EnrichStormEvent now e).measurement.magnitude ≠ 0 →
      (EnrichStormEvent now e).measurement.severity = some
        (if (EnrichStormEvent now e).measurement.magnitude < 3 / 4 then "minor"
         else if (EnrichStormEvent now e).measurement.magnitude < 3 / 2 then "moderate"
         else if (EnrichStormEvent now e).measurement.magnitude < 5 / 2 then "severe"
         else "extreme")) ∧
    ((EnrichStormEvent now e).eventType = "wind" →
      (EnrichStormEvent now e).measurement.magnitude ≠ 0 →
      (EnrichStormEvent now e).measurement.severity = some
        (if (EnrichStormEvent now e).measurement.magnitude < 50 then "minor"
         else if (EnrichStormEvent now e).measurement.magnitude < 74 then "moderate"
         else if (EnrichStormEvent now e).measurement.magnitude < 96 then "severe"
         else "extreme")) ∧
    ((EnrichStormEvent now e).eventType = "tornado" →
      (EnrichStormEvent now e).measurement.magnitude ≠ 0 →
      (EnrichStormEvent now e).measurement.severity = some
        (if (EnrichStormEvent now e).measurement.magnitude ≤ 1 then "minor"
         else if (EnrichStormEvent now e).measurement.magnitude = 2 then "moderate"
         else if (EnrichStormEvent now e).measurement.magnitude ≤ 4 then "severe"
         else "extreme")) := by
  have hsev : (EnrichStormEvent now e).measurement.severity =
      deriveSeverity (EnrichStormEvent now e).eventType
        (EnrichStormEvent now e).measurement.magnitude := rfl
  rw [hsev]
  set et := (EnrichStormEvent now e).eventType with het
  set mag := (EnrichStormEvent now e).measurement.magnitude with hmag
  clear_value et mag
  unfold deriveSeverity
  refine ⟨?_, ?_, ?_, ?_, ?_⟩
  · constructor
    · intro h
      by_cases h0 : mag = 0
      · exact Or.inl h0
      · simp only [if_neg h0] at h
        refine Or.inr ?_
        by_cases h1 : et = "hail"
        · simp [h1] at h
        · by_cases h2 : et = "wind"
          · simp [h1, h2] at h
          · by_cases h3 : et = "tornado"
            · simp [h1, h2, h3] at h
            · simp [h1, h2, h3]
    · intro h
      rcases h with h0 | hnot
      · simp [h0]
      · simp only [List.mem_cons, List.mem_singleton, not_or] at hnot
        obtain ⟨h1, h2, h3⟩ := hnot
        simp only [List.not_mem_nil] at *
        by_cases h0 : mag = 0
        · simp [h0]
        · simp [h0, h1, h2, h3]
  · intro s hs
    by_cases h0 : mag = 0
    · simp [h0] at hs
    · rw [if_neg h0] at hs
      repeat' split at hs
      all_goals simp_all
  · intro h1 h0
    simp [h0, h1]
  · intro h2 h0
    by_cases h1 : et = "hail"
    · rw [h1] at h2; exact absurd h2 (by decide)
    · simp [h0, h1, h2]
  · intro h3 h0
    by_cases h1 : et = "hail"
    · rw [h1] at h3; exact absurd h3 (by decide)
    · by_cases h2 : et = "wind"
      · rw [h2] at h3; exact absurd h3 (by decide)
      · simp [h0, h1, h2, h3]

/-- Witness for C5: enriched hail at 1.75 in is severe. -/
theorem C5_witness :
    (EnrichStormEvent GoTime.zero (hailEvent 175 "in")).measurement.severity = some "severe" := by
  have h := (C5_severity (hailEvent 175 "in") GoTime.zero).2.2.1 (by decide) (by decide)
  exact h.trans (by decide)

/-! ## C7: geocoding strategy selection and degradation -/

/-- C7: with a geocoder present, non-zero coordinates select the reverse
strategy (the result never depends on the forward function), and a provider
error sets the source label to `failed` with coordinates preserved; with zero
coordinates and both a location name and state, the forward strategy is used
(the result never depends on the reverse function); otherwise the label is
`original`.  Without a geocoder the event is unchanged, so a label that was
empty stays empty. -/
theorem C7_geocoding_strategy (e : StormEvent) (g : Geocoder) :
    ((e.geo.lat ≠ 0 ∨ e.geo.lon ≠ 0) →
      (∀ f, EnrichWithGeocoding (some ⟨f, g.reverseGeocode⟩) e =
        EnrichWithGeocoding (some g) e) ∧
      (g.reverseGeocode e.geo.lat e.geo.lon = Except.error () →
        (EnrichWithGeocoding (some g) e).geocoding.source = "failed" ∧
        (EnrichWithGeocoding (some g) e).geo = e.geo)) ∧
    ((e.geo.lat = 0 ∧ e.geo.lon = 0 ∧ e.location.name ≠ "" ∧ e.location.state ≠ "") →
      (∀ r, EnrichWithGeocoding (some ⟨g.forwardGeocode, r⟩) e =
        EnrichWithGeocoding (some g) e) ∧
      EnrichWithGeocoding (some g) e =
        (match g.forwardGeocode e.location.name e.location.state with
         | .error _ => { e with geocoding := { e.geocoding with source := "failed" } }
         | .ok result =>
           if result.lat ≠ 0 ∨ result.lon ≠ 0 then
             { e with
               geo := ⟨result.lat, result.lon⟩
               geocoding := ⟨result.formattedAddress, result.placeName,
                 result.confidence, "forward"⟩ }
           else { e with geocoding := { e.geocoding with source := "original" } })) ∧
    ((e.geo.lat = 0 ∧ e.geo.lon = 0 ∧ (e.location.name = "" ∨ e.location.state = "")) →
      EnrichWithGeocoding (some g) e =
        { e with geocoding := { e.geocoding with source := "original" } }) ∧
    EnrichWithGeocoding none e = e := by
  refine ⟨?_, ?_, ?_, rfl⟩
  · intro hc
    have hnotfwd : ¬(¬(e.geo.lat ≠ 0 ∨ e.geo.lon ≠ 0) ∧
        (e.location.name ≠ "" ∧ e.location.state ≠ "")) := fun h => h.1 hc
    constructor
    · intro f
      unfold EnrichWithGeocoding
      dsimp only
      simp only [if_neg hnotfwd, if_pos hc]
    · intro herr
      unfold EnrichWithGeocoding
      dsimp only
      simp only [if_neg hnotfwd, if_pos hc, herr]
      exact ⟨trivial, trivial⟩
  · intro ⟨hlat, hlon, hname, hstate⟩
    have hfwd : (¬(e.geo.lat ≠ 0 ∨ e.geo.lon ≠ 0) ∧
        (e.location.name ≠ "" ∧ e.location.state ≠ "")) :=
      ⟨by simp [hlat, hlon], hname, hstate⟩
    constructor
    · intro r
      unfold EnrichWithGeocoding
      dsimp only
      simp only [if_pos hfwd]
    · unfold EnrichWithGeocoding
      dsimp only
      simp only [if_pos hfwd]
  · intro ⟨hlat, hlon, hmiss⟩
    have hnc : ¬(e.geo.lat ≠ 0 ∨ e.geo.lon ≠ 0) := by simp [hlat, hlon]
    have hnotfwd : ¬(¬(e.geo.lat ≠ 0 ∨ e.geo.lon ≠ 0) ∧
        (e.location.name ≠ "" ∧ e.location.state ≠ "")) := by
      rcases hmiss with h | h <;> simp [h]
    unfold EnrichWithGeocoding
    dsimp only
    simp only [if_neg hnotfwd, if_neg hnc]

/-- Witness for C7: a failing reverse lookup degrades to `failed` and keeps
the coordinates. -/
theorem C7_witness :
    (EnrichWithGeocoding (some w7geocoder) w7event).geocoding.source = "failed" ∧
    (EnrichWithGeocoding (some w7geocoder) w7event).geo = w7event.geo :=
  ((C7_geocoding_strategy w7event w7geocoder).1 (by decide)).2 rfl

/-! ## C6: LRU cache behaviour -/

/-- Erasing the entry that `find?` located shrinks the list by one. -/
theorem length_eraseP_of_find? {α : Type} (p : α → Bool) (l : List α) (e : α)
    (h : l.find? p = some e) : (l.eraseP p).length + 1 = l.length := by
  induction l with
  | nil => simp at h
  | cons a t ih =>
    by_cases hp : p a
    · simp [List.eraseP_cons, hp]
    · rw [List.find?_cons_of_neg t hp] at h
      simp [List.eraseP_cons, hp, ih h]

/-- A promotion (`get` on a present key) does not change the cache size. -/
theorem lruGet_length (c : LRUCache) (k : String) :
    (lruGet c k).2.length = c.length := by
  unfold lruGet
  cases h : c.find? (fun e => e.1 = k) with
  | none => rfl
  | some e =>
    simp only [List.length_cons]
    rw [length_eraseP_of_find? _ c e h]

/-- A `put` never grows the cache beyond the capacity. -/
theorem lruPut_length_le (N : Nat) (c : LRUCache) (k : String) (v : GeocodingResult)
    (hc : c.length ≤ N) : (lruPut N c k v).length ≤ N := by
  unfold lruPut
  cases h : c.find? (fun e => e.1 = k) with
  | some e =>
    simp only [List.length_cons]
    rw [length_eraseP_of_find? _ c e h]
    exact hc
  | none =>
    dsimp only
    split
    · next hlt =>
      simp only [List.dropLast_cons_of_ne_nil, List.length_dropLast, List.length_cons]
      omega
    · next hlt =>
      simp only [List.length_cons] at hlt ⊢
      omega

/-- Any operation preserves the capacity bound. -/
theorem applyCacheOp_length_le (N : Nat) (c : LRUCache) (op : CacheOp)
    (hc : c.length ≤ N) : (applyCacheOp N c op).length ≤ N := by
  cases op with
  | put k v => exact lruPut_length_le N c k v hc
  | get k => rw [applyCacheOp, lruGet_length]; exact hc

/-- The capacity bound is an invariant of arbitrary operation sequences. -/
theorem runCacheOps_length_le (N : Nat) (ops : List CacheOp) (c : LRUCache)
    (hc : c.length ≤ N) : (runCacheOps N c ops).length ≤ N := by
  induction ops generalizing c with
  | nil => exact hc
  | cons op rest ih => exact ih _ (applyCacheOp_length_le N c op hc)

/-- C6: an LRU cache of capacity N ≥ 1 never holds more than N entries under
any operation sequence; inserting a fresh key into a full cache evicts
exactly the least-recently-used (last) entry; `get` on a present key returns
its value and promotes the entry to the front without changing the size;
`put` on a present key updates the value and promotes; and the capacity-2
scenario put(a), put(b), get(a), put(c) leaves a and c retrievable and b
absent. -/
theorem C6_lru_cache (N : Nat) (hN : 1 ≤ N) :
    (∀ ops : List CacheOp, (runCacheOps N ([] : LRUCache) ops).length ≤ N) ∧
    (∀ (c : LRUCache) (k : String) (v : GeocodingResult),
      c.length = N → c.find? (fun e => e.1 = k) = none →
      lruPut N c k v = (k, v) :: c.dropLast) ∧
    (∀ (c : LRUCache) (k : String) (e : String × GeocodingResult),
      c.find? (fun e => e.1 = k) = some e →
      (lruGet c k).1 = some e.2 ∧
      (lruGet c k).2.head? = some e ∧
      (lruGet c k).2.length = c.length) ∧
    (∀ (c : LRUCache) (k : String) (v : GeocodingResult) (e : String × GeocodingResult),
      c.find? (fun e => e.1 = k) = some e →
      lruPut N c k v = (k, v) :: c.eraseP (fun e => e.1 = k)) ∧
    (((lruGet (runCacheOps 2 ([] : LRUCache)
        [.put "a" ⟨1, 0, "a", "", 1⟩, .put "b" ⟨2, 0, "b", "", 1⟩,
         .get "a", .put "c" ⟨3, 0, "c", "", 1⟩]) "a").1.isSome = true) ∧
     ((lruGet (runCacheOps 2 ([] : LRUCache)
        [.put "a" ⟨1, 0, "a", "", 1⟩, .put "b" ⟨2, 0, "b", "", 1⟩,
         .get "a", .put "c" ⟨3, 0, "c", "", 1⟩]) "c").1.isSome = true) ∧
     ((lruGet (runCacheOps 2 ([] : LRUCache)
        [.put "a" ⟨1, 0, "a", "", 1⟩, .put "b" ⟨2, 0, "b", "", 1⟩,
         .get "a", .put "c" ⟨3, 0, "c", "", 1⟩]) "b").1.isSome = false)) := by
  refine ⟨fun ops => runCacheOps_length_le N ops [] (by simp), ?_, ?_, ?_, by decide⟩
  · intro c k v hlen hnone
    have hne : c ≠ [] := by
      intro hnil
      rw [hnil] at hlen
      simp at hlen
      omega
    unfold lruPut
    rw [hnone]
    dsimp only
    rw [if_pos (by simp [hlen]), List.dropLast_cons_of_ne_nil hne]
  · intro c k e hfind
    unfold lruGet
    rw [hfind]
    exact ⟨rfl, rfl, by rw [← lruGet_length c k]; unfold lruGet; rw [hfind]⟩
  · intro c k v e hfind
    unfold lruPut
    rw [hfind]

/-- Witness for C6: eviction at capacity 2 removes the stale tail entry. -/
theorem C6_witness :
    lruPut 2 [("b", ⟨2, 0, "b", "", 1⟩), ("a", ⟨1, 0, "a", "", 1⟩)] "c" ⟨3, 0, "c", "", 1⟩ =
      [("c", ⟨3, 0, "c", "", 1⟩), ("b", ⟨2, 0, "b", "", 1⟩)] := by
  have h := (C6_lru_cache 2 (by decide)).2.1
    [("b", ⟨2, 0, "b", "", 1⟩), ("a", ⟨1, 0, "a", "", 1⟩)] "c" ⟨3, 0, "c", "", 1⟩
    (by decide) (by decide)
  exact h.trans (by decide)

/-! ## C3: enrichment idempotence -/

/-- `Char.ofNat` of a codepoint below the surrogate range keeps its value. -/
theorem toNat_ofNat_lt (n : Nat) (h : n < 55296) : (Char.ofNat n).toNat = n := by
  have hv : n.isValidChar := Or.inl h
  rw [Char.ofNat, dif_pos hv]
  rfl

/-- The codepoint arithmetic of the ASCII lower-case map. -/
theorem goToLowerChar_toNat (c : Char) :
    (goToLowerChar c).toNat =
      if 65 ≤ c.toNat ∧ c.toNat ≤ 90 then c.toNat + 32 else c.toNat := by
  unfold goToLowerChar
  split
  · next h => exact toNat_ofNat_lt _ (by omega)
  · rfl

/-- Lower-casing is idempotent on characters. -/
theorem goToLowerChar_idem (c : Char) :
    goToLowerChar (goToLowerChar c) = goToLowerChar c := by
  by_cases h : 65 ≤ c.toNat ∧ c.toNat ≤ 90
  · have ht : (goToLowerChar c).toNat = c.toNat + 32 := by
      rw [goToLowerChar_toNat, if_pos h]
    show (if 65 ≤ (goToLowerChar c).toNat ∧ (goToLowerChar c).toNat ≤ 90 then _ else _) = _
    rw [if_neg (by omega)]
  · show (if 65 ≤ (goToLowerChar c).toNat ∧ (goToLowerChar c).toNat ≤ 90 then _ else _) = _
    have ht : (goToLowerChar c).toNat = c.toNat := by
      rw [goToLowerChar_toNat, if_neg h]
    have hc : goToLowerChar c = c := by unfold goToLowerChar; rw [if_neg h]
    rw [if_neg (by rw [ht]; exact h), hc]

/-- Lower-casing neither creates nor destroys whitespace. -/
theorem goIsSpace_goToLowerChar (c : Char) :
    goIsSpace (goToLowerChar c) = goIsSpace c := by
  by_cases h : 65 ≤ c.toNat ∧ c.toNat ≤ 90
  · have ht : (goToLowerChar c).toNat = c.toNat + 32 := by
      rw [goToLowerChar_toNat, if_pos h]
    have A : goIsSpace (goToLowerChar c) = false := by simp [goIsSpace, ht]; omega
    have B : goIsSpace c = false := by simp [goIsSpace]; omega
    rw [A, B]
  · have hc : goToLowerChar c = c := by unfold goToLowerChar; rw [if_neg h]
    rw [hc]

/-- A list that survives a front `dropWhile` also survives it after the
matching tail drop. -/
theorem dropWhile_rdropWhile (p : Char → Bool) (l : List Char)
    (h : l.dropWhile p = l) : (l.rdropWhile p).dropWhile p = l.rdropWhile p := by
  cases hr : l.rdropWhile p with
  | nil => rfl
  | cons a t =>
    have hpref : l.rdropWhile p <+: l := List.rdropWhile_prefix p l
    rw [hr] at hpref
    obtain ⟨s, hs⟩ := hpref
    rw [List.cons_append] at hs
    rw [← hs] at h
    rw [List.dropWhile_cons] at h ⊢
    by_cases hp : p a
    · rw [if_pos hp] at h
      have hlen : (List.dropWhile p (t ++ s)).length = (a :: (t ++ s)).length :=
        congrArg List.length h
      have hle : (List.dropWhile p (t ++ s)).length ≤ (t ++ s).length :=
        (List.dropWhile_sublist _).length_le
      simp only [List.length_cons] at hlen
      omega
    · rw [if_neg hp]

/-- Trimming is idempotent. -/
theorem trimList_idem (l : List Char) : trimList (trimList l) = trimList l := by
  have hrw : ∀ x : List Char, trimList x = (x.dropWhile goIsSpace).rdropWhile goIsSpace := by
    intro x
    rfl
  rw [hrw, hrw]
  rw [dropWhile_rdropWhile goIsSpace (l.dropWhile goIsSpace) (List.dropWhile_idempotent ..)]
  rw [List.rdropWhile_idempotent]

/-- Trimming commutes with lower-casing. -/
theorem trimList_map_lower (l : List Char) :
    trimList (l.map goToLowerChar) = (trimList l).map goToLowerChar := by
  have hcomp : (goIsSpace ∘ goToLowerChar) = goIsSpace := by
    funext c
    exact goIsSpace_goToLowerChar c
  unfold trimList
  rw [List.dropWhile_map, hcomp, ← List.map_reverse, List.dropWhile_map, hcomp,
    ← List.map_reverse]

/-- `ToLower ∘ TrimSpace` is idempotent. -/
theorem lowerTrim_idem (s : String) :
    goToLower (goTrim (goToLower (goTrim s))) = goToLower (goTrim s) := by
  show (⟨(trimList ((trimList s.data).map goToLowerChar)).map goToLowerChar⟩ : String) = _
  rw [trimList_map_lower, trimList_idem, List.map_map]
  have hcc : (goToLowerChar ∘ goToLowerChar) = goToLowerChar := by
    funext c
    exact goToLowerChar_idem c
  rw [hcc]
  rfl

/-- Event-type normalization is idempotent. -/
theorem normalizeEventType_idem (v : String) :
    normalizeEventType (normalizeEventType v) = normalizeEventType v := by
  by_cases h : v = "hail" ∨ v = "wind" ∨ v = "tornado"
  · have hv : normalizeEventType v = v := by unfold normalizeEventType; rw [if_pos h]
    rw [hv, hv]
  · have hv : normalizeEventType v = "" := by unfold normalizeEventType; rw [if_neg h]
    rw [hv]
    decide

/-- Unit normalization is idempotent (for a fixed event type). -/
theorem normalizeUnit_idem (et u : String) :
    normalizeUnit et (normalizeUnit et u) = normalizeUnit et u := by
  have hdef : ∀ w, normalizeUnit et w =
      (if goToLower (goTrim w) ≠ "" then goToLower (goTrim w)
       else if et = "hail" then "in" else if et = "wind" then "mph"
       else if et = "tornado" then "f_scale" else "") := fun w => rfl
  by_cases h : goToLower (goTrim u) ≠ ""
  · rw [hdef u, if_pos h, hdef (goToLower (goTrim u)), lowerTrim_idem, if_pos h]
  · rw [hdef u, if_neg h]
    by_cases h1 : et = "hail"
    · rw [if_pos h1, hdef "in", show goToLower (goTrim "in") = "in" from by decide,
        if_pos (by decide)]
    · rw [if_neg h1]
      by_cases h2 : et = "wind"
      · rw [if_pos h2, hdef "mph", show goToLower (goTrim "mph") = "mph" from by decide,
          if_pos (by decide)]
      · rw [if_neg h2]
        by_cases h3 : et = "tornado"
        · rw [if_pos h3, hdef "f_scale",
            show goToLower (goTrim "f_scale") = "f_scale" from by decide,
            if_pos (by decide)]
        · rw [if_neg h3, hdef "", show goToLower (goTrim "") = "" from rfl,
            if_neg (by simp), if_neg h1, if_neg h2, if_neg h3]

/-- Magnitude normalization is the identity outside the hail/inches legacy
range. -/
theorem normalizeMagnitude_noop (et u : String) (m : ℚ)
    (h : ¬(et = "hail" ∧ u = "in" ∧ 10 ≤ m)) : normalizeMagnitude et m u = m := by
  unfold normalizeMagnitude
  by_cases h0 : m = 0
  · rw [if_pos h0]
  · rw [if_neg h0, if_neg h]

/-- C3 counterexample: a hail event with raw magnitude 1000 (unit `in`) is
normalized to 10 by the first enrichment and to 0.1 by the second, so double
enrichment differs from single enrichment beyond `processed_at` (here even
with the identical clock instant). -/
theorem C3_counterexample :
    (EnrichStormEvent GoTime.zero
        (EnrichStormEvent GoTime.zero (hailEvent 1000 "in"))).measurement.magnitude
      = 1 / 10 ∧
    (EnrichStormEvent GoTime.zero (hailEvent 1000 "in")).measurement.magnitude = 10 ∧
    EnrichStormEvent GoTime.zero (EnrichStormEvent GoTime.zero (hailEvent 1000 "in")) ≠
      { EnrichStormEvent GoTime.zero (hailEvent 1000 "in") with
        processedAt := GoTime.zero } := by
  refine ⟨by decide, by decide, by decide⟩

/-- C3 amended: enrichment is idempotent up to `processed_at` for every event
whose once-enriched state is not a hail measurement in inches with magnitude
≥ 10 (i.e. raw hail magnitude < 1000); in that excluded range the second
application divides the magnitude by 100 again. -/
theorem C3_enrich_idempotent_amended (e : StormEvent) (t₁ t₂ : GoTime)
    (h : ¬((EnrichStormEvent t₁ e).eventType = "hail" ∧
           (EnrichStormEvent t₁ e).measurement.unit = "in" ∧
           10 ≤ (EnrichStormEvent t₁ e).measurement.magnitude)) :
    EnrichStormEvent t₂ (EnrichStormEvent t₁ e) =
      { EnrichStormEvent t₁ e with processedAt := t₂ } := by
  unfold EnrichStormEvent at h ⊢
  dsimp only at h ⊢
  rw [normalizeEventType_idem, normalizeUnit_idem, normalizeMagnitude_noop _ _ _ h]

/-- Witness for the amended C3 at a hail event with raw magnitude 175. -/
theorem C3_witness :
    EnrichStormEvent GoTime.zero (EnrichStormEvent GoTime.zero (hailEvent 175 "in")) =
      { EnrichStormEvent GoTime.zero (hailEvent 175 "in") with
        processedAt := GoTime.zero } :=
  C3_enrich_idempotent_amended (hailEvent 175 "in") GoTime.zero GoTime.zero (by decide)

/-! ## C4: begin_time from HHMM -/

/-- Digits are not whitespace. -/
theorem not_space_of_digit (c : Char) (h : goIsDigit c = true) : goIsSpace c = false := by
  simp only [goIsDigit, Bool.and_eq_true, decide_eq_true_eq] at h
  simp only [goIsSpace, Bool.or_eq_false_iff, decide_eq_false_iff_not]
  omega

/-- Trimming an all-digit string is the identity. -/
theorem trimList_of_digits (l : List Char) (h : l.all goIsDigit = true) :
    trimList l = l := by
  have h1 : l.dropWhile goIsSpace = l := by
    cases l with
    | nil => rfl
    | cons a t =>
      simp only [List.all_cons, Bool.and_eq_true] at h
      rw [List.dropWhile_cons, if_neg (by rw [not_space_of_digit a h.1]; simp)]
  have h2 : l.rdropWhile goIsSpace = l := by
    rw [List.rdropWhile_eq_self_iff]
    intro hl
    have hmem := List.getLast_mem hl
    have hd : goIsDigit (l.getLast hl) = true := by
      rw [List.all_eq_true] at h
      exact h _ hmem
    rw [not_space_of_digit _ hd]
    simp
  show (l.dropWhile goIsSpace).rdropWhile goIsSpace = l
  rw [h1, h2]

/-- `Atoi` of two digit characters. -/
theorem goAtoi_two_digits (x y : Char) (hx : goIsDigit x = true) (hy : goIsDigit y = true) :
    goAtoi ⟨[x, y]⟩ = some (Int.ofNat ((x.toNat - 48) * 10 + (y.toNat - 48))) := by
  have hxp : x ≠ '+' := by
    intro he
    rw [he] at hx
    simp [goIsDigit] at hx
  have hxm : x ≠ '-' := by
    intro he
    rw [he] at hx
    simp [goIsDigit] at hx
  unfold goAtoi
  dsimp only
  rw [if_neg hxp, if_neg hxm]
  unfold digitsToNat
  dsimp only
  rw [if_pos (by simp [hx, hy])]
  simp [List.foldl]

/-- The code accepts every HHMM of the claim's well-formed class, with the
same hour and minute. -/
theorem claimHHMM_sub_codeHHMM (s : String) (hh mm : Nat)
    (h : claimHHMM s = some (hh, mm)) : codeHHMM s = some (hh, mm) := by
  obtain ⟨data⟩ := s
  match data with
  | [] => simp [claimHHMM] at h
  | [a] => simp [claimHHMM] at h
  | [a, b] => simp [claimHHMM] at h
  | [a, b, c] =>
    rw [claimHHMM] at h
    dsimp only at h
    by_cases hd : goIsDigit a ∧ goIsDigit b ∧ goIsDigit c
    · rw [if_pos hd] at h
      have hda : 48 ≤ a.toNat ∧ a.toNat ≤ 57 := by
        simpa [goIsDigit, -Bool.decide_and] using hd.1
      have hdb : 48 ≤ b.toNat ∧ b.toNat ≤ 57 := by
        simpa [goIsDigit, -Bool.decide_and] using hd.2.1
      have hdc : 48 ≤ c.toNat ∧ c.toNat ≤ 57 := by
        simpa [goIsDigit, -Bool.decide_and] using hd.2.2
      by_cases hr : a.toNat - 48 ≤ 23 ∧ (b.toNat - 48) * 10 + (c.toNat - 48) ≤ 59
      · rw [if_pos hr] at h
        cases h
        have htrim : goTrim ⟨[a, b, c]⟩ = ⟨[a, b, c]⟩ := by
          unfold goTrim
          rw [trimList_of_digits _ (by simp [hd.1, hd.2.1, hd.2.2])]
        rw [codeHHMM]
        rw [htrim]
        rw [if_neg (by simp)]
        dsimp only
        rw [if_pos (by simp)]
        have h0 : goIsDigit '0' = true := by decide
        rw [show (('0' :: [a, b, c]).take 2) = ['0', a] from rfl,
          show (('0' :: [a, b, c]).drop 2) = [b, c] from rfl,
          goAtoi_two_digits '0' a h0 hd.1, goAtoi_two_digits b c hd.2.1 hd.2.2]
        rw [show ('0'.toNat : Nat) = 48 from rfl]
        simp only [Nat.sub_self, Nat.zero_mul, Nat.zero_add]
        rw [if_neg (by
          simp only [not_or, Int.ofNat_eq_coe, not_lt]
          omega)]
        simp only [Option.some.injEq, Prod.mk.injEq, Int.ofNat_eq_coe]
        constructor <;> omega
      · rw [if_neg hr] at h
        exact absurd h (by simp)
    · rw [if_neg hd] at h
      exact absurd h (by simp)
  | [a, b, c, d] =>
    rw [claimHHMM] at h
    dsimp only at h
    by_cases hd : goIsDigit a ∧ goIsDigit b ∧ goIsDigit c ∧ goIsDigit d
    · rw [if_pos hd] at h
      have hda : 48 ≤ a.toNat ∧ a.toNat ≤ 57 := by
        simpa [goIsDigit, -Bool.decide_and] using hd.1
      have hdb : 48 ≤ b.toNat ∧ b.toNat ≤ 57 := by
        simpa [goIsDigit, -Bool.decide_and] using hd.2.1
      have hdc : 48 ≤ c.toNat ∧ c.toNat ≤ 57 := by
        simpa [goIsDigit, -Bool.decide_and] using hd.2.2.1
      have hdd : 48 ≤ d.toNat ∧ d.toNat ≤ 57 := by
        simpa [goIsDigit, -Bool.decide_and] using hd.2.2.2
      by_cases hr : (a.toNat - 48) * 10 + (b.toNat - 48) ≤ 23 ∧
          (c.toNat - 48) * 10 + (d.toNat - 48) ≤ 59
      · rw [if_pos hr] at h
        cases h
        have htrim : goTrim ⟨[a, b, c, d]⟩ = ⟨[a, b, c, d]⟩ := by
          unfold goTrim
          rw [trimList_of_digits _ (by simp [hd.1, hd.2.1, hd.2.2.1, hd.2.2.2])]
        rw [codeHHMM]
        rw [htrim]
        rw [if_neg (by simp)]
        dsimp only
        rw [if_neg (by simp)]
        rw [show (([a, b, c, d]).take 2) = [a, b] from rfl,
          show (([a, b, c, d]).drop 2) = [c, d] from rfl,
          goAtoi_two_digits a b hd.1 hd.2.1, goAtoi_two_digits c d hd.2.2.1 hd.2.2.2]
        dsimp only
        rw [if_neg (by
          simp only [not_or, Int.ofNat_eq_coe, not_lt]
          omega)]
        simp only [Option.some.injEq, Prod.mk.injEq, Int.ofNat_eq_coe]
        constructor <;> omega
      · rw [if_neg hr] at h
        exact absurd h (by simp)
    · rw [if_neg hd] at h
      exact absurd h (by simp)
  | a₀ :: a₁ :: a₂ :: a₃ :: a₄ :: rest => simp [claimHHMM] at h

/-- `parseHHMM` is the base-date update on a code-accepted HHMM and the
identity on the base date otherwise. -/
theorem parseHHMM_eq_codeHHMM (base : GoTime) (s : String) :
    parseHHMM base s =
      (match codeHHMM s with
       | some p => base.atHourMin p.1 p.2
       | none => base) := by
  unfold parseHHMM codeHHMM
  dsimp only
  by_cases hlen : (goTrim s).data.length < 3
  · rw [if_pos hlen, if_pos hlen]
  · rw [if_neg hlen, if_neg hlen]
    cases hA : goAtoi ⟨(if (goTrim s).data.length = 3 then '0' :: (goTrim s).data
        else (goTrim s).data).take 2⟩ with
    | none => rfl
    | some hour =>
      cases hB : goAtoi ⟨(if (goTrim s).data.length = 3 then '0' :: (goTrim s).data
          else (goTrim s).data).drop 2⟩ with
      | none => rfl
      | some mins =>
        dsimp only
        by_cases hcond : hour < 0 ∨ 23 < hour ∨ mins < 0 ∨ 59 < mins
        · rw [if_pos hcond, if_pos hcond]
        · rw [if_neg hcond, if_neg hcond]

/-- C4 counterexample: an empty (malformed) HHMM with a non-midnight ingest
timestamp leaves `begin_time` at the full ingest instant, not at the ingest
date's 00:00 UTC. -/
theorem C4_counterexample :
    parseHHMM ⟨2024, 4, 26, 7, 5, 9, 0⟩ "" = ⟨2024, 4, 26, 7, 5, 9, 0⟩ ∧
    (⟨2024, 4, 26, 7, 5, 9, 0⟩ : GoTime) ≠ ⟨2024, 4, 26, 0, 0, 0, 0⟩ := by
  exact ⟨by decide, by decide⟩

/-- C4 amended: a well-formed HHMM (three or four digits, hour 0–23, minute
0–59) yields the ingest date at that hour and minute; every HHMM the code
cannot interpret (after trimming: fewer than three characters, hour or
minute part not an integer, or out of range) leaves `begin_time` equal to
the ingest timestamp itself, unchanged — not the ingest date at 00:00. -/
theorem C4_hhmm_amended (base : GoTime) (s : String) :
    (∀ hh mm, claimHHMM s = some (hh, mm) →
      parseHHMM base s = base.atHourMin hh mm) ∧
    (codeHHMM s = none → parseHHMM base s = base) ∧
    (∀ hh mm, codeHHMM s = some (hh, mm) →
      parseHHMM base s = base.atHourMin hh mm) := by
  refine ⟨?_, ?_, ?_⟩
  · intro hh mm h
    rw [parseHHMM_eq_codeHHMM, claimHHMM_sub_codeHHMM s hh mm h]
  · intro h
    rw [parseHHMM_eq_codeHHMM, h]
  · intro hh mm h
    rw [parseHHMM_eq_codeHHMM, h]

/-- Witness for the amended C4: spec scenario S5 (`"930"`) and the empty
string, at a midnight and a non-midnight base respectively. -/
theorem C4_witness :
    parseHHMM ⟨2024, 4, 26, 0, 0, 0, 0⟩ "930" = ⟨2024, 4, 26, 9, 30, 0, 0⟩ ∧
    parseHHMM ⟨2024, 4, 26, 7, 5, 9, 0⟩ "" = ⟨2024, 4, 26, 7, 5, 9, 0⟩ := by
  constructor
  · exact (C4_hhmm_amended ⟨2024, 4, 26, 0, 0, 0, 0⟩ "930").1 9 30 (by decide)
  · exact (C4_hhmm_amended ⟨2024, 4, 26, 7, 5, 9, 0⟩ "").2.1 (by decide)

/-! ## C8: magnitude sign -/

/-- C8 counterexample: a wind report whose `Speed` parses to −5 produces a
negative magnitude, preserved by enrichment — no clamping exists. -/
theorem C8_counterexample :
    (ParseRawEvent w8raw).toOption.map (fun e => e.measurement.magnitude) = some (-5) ∧
    ((-5 : ℚ) < 0) ∧
    (ParseRawEvent w8raw).toOption.map
      (fun e => (EnrichStormEvent GoTime.zero e).measurement.magnitude) = some (-5) := by
  refine ⟨by decide, by decide, by decide⟩

/-- C8 amended: the parsed magnitude is non-negative unless the selected
type-specific magnitude string (trimmed, `EF`/`F` stripped) parses to a
negative float, in which case the magnitude is exactly that negative value;
enrichment preserves non-negativity; and the parse stage's magnitude is the
selected-column parse. -/
theorem C8_magnitude_amended :
    (∀ eventType size fScale speed : String,
      0 ≤ parseMagnitudeField eventType size fScale speed ∨
      (parseMagnitudeField eventType size fScale speed < 0 ∧
       ∃ raw, selectMagnitudeRaw eventType size fScale speed = some raw ∧
         goParseFloat (goTrimPrefix (goTrimPrefix (goTrim raw) "EF") "F") =
           some (parseMagnitudeField eventType size fScale speed))) ∧
    (∀ (e : StormEvent) (now : GoTime), 0 ≤ e.measurement.magnitude →
      0 ≤ (EnrichStormEvent now e).measurement.magnitude) ∧
    (∀ (raw : RawEvent) (rec : RawCSVRecord) (ev : StormEvent),
      raw.value = Payload.record rec → ParseRawEvent raw = Except.ok ev →
      ev.measurement.magnitude =
        parseMagnitudeField rec.eventType rec.size rec.fScale rec.speed) := by
  refine ⟨?_, ?_, ?_⟩
  · intro eventType size fScale speed
    unfold parseMagnitudeField
    cases hsel : selectMagnitudeRaw eventType size fScale speed with
    | none => left; rfl
    | some raw =>
      dsimp only
      by_cases hempty : goTrim raw = "" ∨ goEqualFoldASCII (goTrim raw) "UNK"
      · rw [if_pos hempty]
        left
        rfl
      · rw [if_neg hempty]
        cases hpf : goParseFloat (goTrimPrefix (goTrimPrefix (goTrim raw) "EF") "F") with
        | none => left; rfl
        | some v =>
          by_cases hv : 0 ≤ v
          · left; exact hv
          · right
            refine ⟨by linarith [not_le.mp hv], raw, rfl, hpf⟩
  · intro e now h
    show 0 ≤ normalizeMagnitude (normalizeEventType e.eventType) e.measurement.magnitude
      (normalizeUnit (normalizeEventType e.eventType) e.measurement.unit)
    unfold normalizeMagnitude
    split
    · exact h
    · split
      · positivity
      · exact h
  · intro raw rec ev hval hok
    rw [ParseRawEvent, hval] at hok
    cases hok
    rfl

/-- Witness for the amended C8: a hail event enriched from raw magnitude 175
keeps a non-negative magnitude. -/
theorem C8_witness :
    0 ≤ (EnrichStormEvent GoTime.zero (hailEvent 175 "in")).measurement.magnitude :=
  C8_magnitude_amended.2.1 (hailEvent 175 "in") GoTime.zero (by decide)

/-! ## C1: batched pipeline contract -/

/-- `commitOffset` only touches the commit ledger. -/
theorem commitOffset_transformErrors (st : EtlLedger) (m : RawEvent) :
    (commitOffset st m).transformErrors = st.transformErrors := by
  unfold commitOffset
  split <;> rfl

/-- `commitOffset` only touches the commit ledger. -/
theorem commitOffset_produced (st : EtlLedger) (m : RawEvent) :
    (commitOffset st m).produced = st.produced := by
  unfold commitOffset
  split <;> rfl

/-- `commitOffset` appends the message when it has a commit capability. -/
theorem commitOffset_commits (st : EtlLedger) (m : RawEvent) :
    (commitOffset st m).commits =
      st.commits ++ (if m.hasCommit then [m] else []) := by
  unfold commitOffset
  split
  · rfl
  · simp

/-- The transform loop counts exactly the failing messages. -/
theorem transformPhase_errors (t : RawEvent → Except Unit α) (l : List RawEvent)
    (st : EtlLedger) :
    (transformPhase t l st).1.transformErrors =
      st.transformErrors + (l.filter (fun m => !exceptOk (t m))).length := by
  induction l generalizing st with
  | nil => simp [transformPhase]
  | cons m rest ih =>
    cases hm : t m with
    | error e =>
      rw [transformPhase, hm]
      rw [ih]
      rw [commitOffset_transformErrors]
      simp [List.filter_cons, exceptOk, hm]
      omega
    | ok v =>
      rw [transformPhase, hm]
      dsimp only
      rw [ih]
      simp [List.filter_cons, exceptOk, hm]

/-- The transform loop leaves the produced counter alone. -/
theorem transformPhase_produced (t : RawEvent → Except Unit α) (l : List RawEvent)
    (st : EtlLedger) :
    (transformPhase t l st).1.produced = st.produced := by
  induction l generalizing st with
  | nil => rfl
  | cons m rest ih =>
    cases hm : t m with
    | error e =>
      rw [transformPhase, hm]
      rw [ih, commitOffset_produced]
    | ok v =>
      rw [transformPhase, hm]
      dsimp only
      rw [ih]

/-- The output batch is exactly the list of successful transforms, in order:
each successful message contributes exactly one element. -/
theorem transformPhase_out (t : RawEvent → Except Unit α) (l : List RawEvent)
    (st : EtlLedger) :
    (transformPhase t l st).2.1 = l.filterMap (fun m => (t m).toOption) := by
  induction l generalizing st with
  | nil => rfl
  | cons m rest ih =>
    cases hm : t m with
    | error e =>
      rw [transformPhase, hm]
      rw [ih]
      simp [List.filterMap_cons, hm, Except.toOption]
    | ok v =>
      rw [transformPhase, hm]
      dsimp only
      rw [ih]
      simp [List.filterMap_cons, hm, Except.toOption]

/-- The parallel list of source messages kept for the post-load commits is
exactly the successful messages, in order. -/
theorem transformPhase_succ (t : RawEvent → Except Unit α) (l : List RawEvent)
    (st : EtlLedger) :
    (transformPhase t l st).2.2 = l.filter (fun m => exceptOk (t m)) := by
  induction l generalizing st with
  | nil => rfl
  | cons m rest ih =>
    cases hm : t m with
    | error e =>
      rw [transformPhase, hm]
      rw [ih]
      simp [List.filter_cons, exceptOk, hm]
    | ok v =>
      rw [transformPhase, hm]
      dsimp only
      rw [ih]
      simp [List.filter_cons, exceptOk, hm]

/-- The transform loop commits exactly the failing messages that carry a
commit capability, immediately (before any load). -/
theorem transformPhase_commits (t : RawEvent → Except Unit α) (l : List RawEvent)
    (st : EtlLedger) :
    (transformPhase t l st).1.commits =
      st.commits ++ l.filter (fun m => !exceptOk (t m) && m.hasCommit) := by
  induction l generalizing st with
  | nil => simp [transformPhase]
  | cons m rest ih =>
    cases hm : t m with
    | error e =>
      rw [transformPhase, hm]
      rw [ih, commitOffset_commits]
      simp only [List.filter_cons, exceptOk, hm, Bool.not_false, Bool.true_and]
      cases hc : m.hasCommit <;> simp
    | ok v =>
      rw [transformPhase, hm]
      dsimp only
      rw [ih]
      simp [List.filter_cons, exceptOk, hm]

/-- Folding `commitOffset` leaves the error counter alone. -/
theorem foldl_commitOffset_transformErrors (l : List RawEvent) (st : EtlLedger) :
    (l.foldl commitOffset st).transformErrors = st.transformErrors := by
  induction l generalizing st with
  | nil => rfl
  | cons m rest ih => rw [List.foldl_cons, ih, commitOffset_transformErrors]

/-- Folding `commitOffset` appends the capable messages to the ledger. -/
theorem foldl_commitOffset_commits (l : List RawEvent) (st : EtlLedger) :
    (l.foldl commitOffset st).commits =
      st.commits ++ l.filter (fun m => m.hasCommit) := by
  induction l generalizing st with
  | nil => simp
  | cons m rest ih =>
    rw [List.foldl_cons, ih, commitOffset_commits]
    simp only [List.filter_cons]
    cases hc : m.hasCommit <;> simp

/-- C1: in one batched pipeline iteration, every message whose transform
fails is counted in the transform-error counter and committed immediately
(whatever the loader does) and contributes nothing to the loader's batch;
the batch handed to `LoadBatch` is exactly the successful outputs in order
(each successful message appearing exactly once); and a successful message's
offset is committed iff `LoadBatch` returns without error. -/
theorem C1_pipeline_batch (t : RawEvent → Except Unit α) (loadOk : Bool)
    (rawBatch : List RawEvent) (hC : ∀ m ∈ rawBatch, m.hasCommit = true) :
    (transformAndLoad t loadOk rawBatch ⟨0, 0, []⟩).1.transformErrors =
      (rawBatch.filter (fun m => !exceptOk (t m))).length ∧
    (∀ m ∈ rawBatch, exceptOk (t m) = false →
      m ∈ (transformAndLoad t loadOk rawBatch ⟨0, 0, []⟩).1.commits) ∧
    ((transformAndLoad t loadOk rawBatch ⟨0, 0, []⟩).2.1 =
      (if (rawBatch.filterMap (fun m => (t m).toOption)).isEmpty then none
       else some (rawBatch.filterMap (fun m => (t m).toOption)))) ∧
    (∀ m ∈ rawBatch, exceptOk (t m) = true →
      (m ∈ (transformAndLoad t loadOk rawBatch ⟨0, 0, []⟩).1.commits ↔ loadOk = true)) := by
  have herr := transformPhase_errors t rawBatch (⟨0, 0, []⟩ : EtlLedger)
  have hout := transformPhase_out t rawBatch (⟨0, 0, []⟩ : EtlLedger)
  have hsucc := transformPhase_succ t rawBatch (⟨0, 0, []⟩ : EtlLedger)
  have hcom := transformPhase_commits t rawBatch (⟨0, 0, []⟩ : EtlLedger)
  rw [List.nil_append] at hcom
  have hfailed : ∀ m ∈ rawBatch, exceptOk (t m) = false →
      m ∈ rawBatch.filter (fun m => !exceptOk (t m) && m.hasCommit) := by
    intro m hm hf
    rw [List.mem_filter]
    exact ⟨hm, by rw [hf, hC m hm]; rfl⟩
  have hsuccNotPoison : ∀ m, exceptOk (t m) = true →
      m ∉ rawBatch.filter (fun m => !exceptOk (t m) && m.hasCommit) := by
    intro m hok hmem
    rw [List.mem_filter] at hmem
    rw [hok] at hmem
    simp at hmem
  unfold transformAndLoad
  dsimp only
  rw [hout, hsucc]
  by_cases hempty : (rawBatch.filterMap (fun m => (t m).toOption)).isEmpty
  · rw [if_pos (by rw [List.isEmpty_iff] at hempty; simp [hempty]), if_pos hempty]
    dsimp only
    rw [herr, hcom]
    refine ⟨by simp, fun m hm hf => hfailed m hm hf, rfl, ?_⟩
    intro m hm hok
    exfalso
    rw [List.isEmpty_iff, List.filterMap_eq_nil_iff] at hempty
    cases ht : t m with
    | error e => rw [ht] at hok; simp [exceptOk] at hok
    | ok v =>
      have hnone := hempty m hm
      rw [ht] at hnone
      simp [Except.toOption] at hnone
  · rw [if_neg (by rw [List.isEmpty_iff] at *; simpa using hempty), if_neg hempty]
    by_cases hload : loadOk
    · rw [if_neg (by simp [hload])]
      dsimp only
      rw [foldl_commitOffset_commits, hcom, herr]
      refine ⟨by rw [foldl_commitOffset_transformErrors]; simp, ?_, rfl, ?_⟩
      · intro m hm hf
        exact List.mem_append_left _ (hfailed m hm hf)
      · intro m hm hok
        constructor
        · intro _
          exact hload
        · intro _
          refine List.mem_append_right _ ?_
          rw [List.mem_filter]
          refine ⟨?_, by rw [hC m hm]⟩
          rw [List.mem_filter]
          exact ⟨hm, hok⟩
    · rw [if_pos (by simp [hload])]
      dsimp only
      rw [herr, hcom]
      refine ⟨by simp, fun m hm hf => hfailed m hm hf, rfl, ?_⟩
      intro m hm hok
      constructor
      · intro hmem
        exact absurd hmem (hsuccNotPoison m hok)
      · intro hl
        exact absurd hl (by simpa using hload)

/-- Witness for C1: one poison pill and one success — the error counter hits
1, both offsets are committed (poison immediately, success after the load). -/
theorem C1_witness :
    (transformAndLoad w1transform true [w1poison, w1good] ⟨0, 0, []⟩).1.transformErrors = 1 ∧
    w1poison ∈ (transformAndLoad w1transform true [w1poison, w1good] ⟨0, 0, []⟩).1.commits ∧
    w1good ∈ (transformAndLoad w1transform true [w1poison, w1good] ⟨0, 0, []⟩).1.commits := by
  have h := C1_pipeline_batch w1transform true [w1poison, w1good] (by decide)
  refine ⟨?_, ?_, ?_⟩
  · rw [h.1]
    decide
  · exact h.2.1 w1poison (by decide) (by decide)
  · exact (h.2.2.2 w1good (by decide) (by decide)).mpr rfl

end StormETL
